import Mathlib

/-!
Verification development for the HAND compiler toolchain (repository `gnew1/HAND`).

This file gives a shallow embedding, in Lean 4, of the parts of the toolchain
that the checked claims are about:

* the reference interpreter
  (`SALIDA/hand_equivalence_oracle_v0_1/src/handc/interpreter.py`),
* the host-language (Python) backend (`src/handc/python_gen.py`),
* AST → IR lowering (`SALIDA/hand_ir_capabilities_v0_1/src/handc/lowering.py`),
* the capability policy and enforcer
  (`SALIDA/HAND_handc_v0_1_production_ready_repo_EXPERT/src/handc/{capabilities,enforce}.py`),
* the flow-sensitive typechecker
  (`SALIDA/hand_auditability_trace_v0_1/_vendor_interpreter/src/handc/typecheck.py`
  with the type domain from `_vendor_interpreter/src/handc/types.py`),
* the lexer (`SALIDA/handc_parser_v0_1/src/handc/lexer.py`), and
* the translation validator
  (`SALIDA/hand_conformance_suite_v0_1_with_cnl_translation/transliterate.py`).

Modelling conventions, stated once here:

* Python dictionaries become insertion-ordered association lists; sets become
  sorted duplicate-free lists of strings (the sources only ever iterate sets
  through `sorted(...)`, so no observable ordering is lost).
* Machine/runtime values: Python `int` is unbounded and becomes `Int`;
  Python `float` (IEEE-754 binary64) is abstracted as an exact rational.
  Rational arithmetic agrees with float arithmetic exactly on the inputs the
  theorems below evaluate; the decimal formatting of floats is NOT modelled
  (see claim C6, settled as not statable).
* Python exceptions become explicit error results; `try/finally` becomes a
  match in which the finaliser runs on every branch.
* Fueled recursion is used for the interpreter's mutually recursive
  evaluator.  Fuel exhaustion is a separate outcome that no theorem ever
  confuses with the source program's behaviour.
-/

namespace HAND

/-! ## Runtime value domain of the reference interpreter

The interpreter's values are the Python objects produced by evaluating HAND
expressions: `None`, `bool`, `int`, `float`, `str` (lists/dicts appear in the
source only in `_repr`'s defensive branches and are never produced by
`eval_expr`, so they are not part of the domain). -/

inductive Value where
  | null
  | bool (b : Bool)
  | int (n : Int)
  | float (q : Rat)
  | str (s : String)
deriving DecidableEq, Repr

/-- Python `type(v).__name__`, used in runtime error messages. -/
def Value.pyTypeName : Value → String
  | .null => "NoneType"
  | .bool _ => "bool"
  | .int _ => "int"
  | .float _ => "float"
  | .str _ => "str"

/-- Python `isinstance(v, (int, float))`.  Python booleans are instances of
`int`, so they count as numbers here, exactly as in the source. -/
def Value.isPyNum : Value → Bool
  | .bool _ => true
  | .int _ => true
  | .float _ => true
  | _ => false

/-- The numeric content of a Python number: `inl` an exact `int`
(booleans coerce to 0/1), `inr` a float (abstracted as a rational). -/
def Value.asNum : Value → Option (Int ⊕ Rat)
  | .bool b => some (.inl (if b then 1 else 0))
  | .int n => some (.inl n)
  | .float q => some (.inr q)
  | _ => Option.none

def numToRat : Int ⊕ Rat → Rat
  | .inl n => (n : Rat)
  | .inr q => q

/-- Python `==` on the value domain.  Numbers (including `bool`) compare by
numeric value across representations (`True == 1`, `1 == 1.0`); `None` only
equals `None`; strings compare by content; any other mixed pair is unequal. -/
def pyEq (a b : Value) : Bool :=
  match a.asNum, b.asNum with
  | some x, some y => numToRat x == numToRat y
  | _, _ =>
    match a, b with
    | .null, .null => true
    | .str s, .str t => s == t
    | _, _ => false

/-- Python floor modulo (`%`): the result has the sign of the divisor. -/
def pyModInt (a b : Int) : Int := Int.fmod a b

/-- Python numeric addition/subtraction/multiplication: `int` if both
operands are `int`-like, `float` if either is a float. -/
def pyNumBin (f : Int → Int → Int) (g : Rat → Rat → Rat) :
    Int ⊕ Rat → Int ⊕ Rat → Value
  | .inl x, .inl y => .int (f x y)
  | x, y => .float (g (numToRat x) (numToRat y))

/-- Python exceptions that can escape an interpreter operation. -/
inductive PyExc where
  | hand (code msg : String)   -- `HandRuntimeError`
  | zeroDiv                    -- `ZeroDivisionError` from `/` or `%` by zero
deriving DecidableEq, Repr

/-- `Interpreter._eval_bin` (interpreter.py lines 227–250), faithfully:
string concatenation for `+` on two `str`s; arithmetic on numbers with the
type error HND-RT-1201 otherwise; `==`/`!=` via Python equality on any pair;
ordered comparisons on numbers only (HND-RT-1202); HND-RT-1200 for an
unknown operator. -/
def eval_bin (a : Value) (op : String) (b : Value) : Except PyExc Value :=
  if op == "+" || op == "-" || op == "*" || op == "/" || op == "%" then
    match a, b with
    | .str s, .str t =>
      if op == "+" then .ok (.str (s ++ t)) else
      -- falls through to the number check below, which fails for strings
      .error (.hand "HND-RT-1201"
        (s!"Operator \x27{op}\x27 expects numbers (or Text+Text), got " ++
         s!"{Value.pyTypeName a} and {Value.pyTypeName b}."))
    | _, _ =>
      match a.asNum, b.asNum with
      | some x, some y =>
        if op == "+" then .ok (pyNumBin (· + ·) (· + ·) x y)
        else if op == "-" then .ok (pyNumBin (· - ·) (· - ·) x y)
        else if op == "*" then .ok (pyNumBin (· * ·) (· * ·) x y)
        else if op == "/" then
          -- Python `/` always yields a float and raises on a zero divisor
          if numToRat y == 0 then .error .zeroDiv
          else .ok (.float (numToRat x / numToRat y))
        else -- op == "%"
          match x, y with
          | .inl m, .inl n =>
            if n == 0 then .error .zeroDiv else .ok (.int (pyModInt m n))
          | _, _ =>
            if numToRat y == 0 then .error .zeroDiv
            else .ok (.float (numToRat x - numToRat y * ((numToRat x / numToRat y).floor : Int)))
      | _, _ =>
        .error (.hand "HND-RT-1201"
          (s!"Operator \x27{op}\x27 expects numbers (or Text+Text), got " ++
           s!"{Value.pyTypeName a} and {Value.pyTypeName b}."))
  else if op == "==" || op == "!=" || op == "<" || op == "<=" || op == ">" || op == ">=" then
    if op == "==" then .ok (.bool (pyEq a b))
    else if op == "!=" then .ok (.bool (!pyEq a b))
    else
      match a.asNum, b.asNum with
      | some x, some y =>
        if op == "<" then .ok (.bool (decide (numToRat x < numToRat y)))
        else if op == "<=" then .ok (.bool (decide (numToRat x ≤ numToRat y)))
        else if op == ">" then .ok (.bool (decide (numToRat y < numToRat x)))
        else .ok (.bool (decide (numToRat y ≤ numToRat x)))
      | _, _ =>
        .error (.hand "HND-RT-1202"
          (s!"Comparison \x27{op}\x27 expects numbers, got " ++
           s!"{Value.pyTypeName a} and {Value.pyTypeName b}."))
  else
    .error (.hand "HND-RT-1200" s!"Unknown operator \x27{op}\x27.")

/-! ## Stringification (`Interpreter._repr`)

`format(v, ".15g")` on IEEE-754 doubles is floating-point behaviour that the
embedding abstracts; `reprFloat` renders the exact rational instead.  No
settled claim evaluates it (claim C6 is recorded as not statable because of
precisely this function). -/

def reprFloat (q : Rat) : String := toString q

def reprValue : Value → String
  | .null => "null"
  | .bool b => if b then "true" else "false"
  | .float q => reprFloat q
  | .int n => toString n
  | .str s => s

/-! ## Dictionaries and the scope stack (`Store`)

Python dicts are insertion-ordered; assignment to an existing key keeps its
position.  The stack's top frame is `frames[-1]`, i.e. the LAST element. -/

def dictGet {α : Type} (d : List (String × α)) (k : String) : Option α :=
  (d.find? (fun p => p.1 == k)).map (·.2)

def dictSet {α : Type} (d : List (String × α)) (k : String) (v : α) : List (String × α) :=
  if d.any (fun p => p.1 == k) then
    d.map (fun p => if p.1 == k then (k, v) else p)
  else d ++ [(k, v)]

abbrev Frame := List (String × Value)

/-- `Store.get`: scan frames from the top (`reversed(self.frames)`). -/
def storeGet (frames : List Frame) (name : String) : Option Value :=
  match frames with
  | [] => Option.none
  | fr :: rest =>
    match storeGet rest name with
    | some v => some v
    | Option.none => dictGet fr name

/-- Apply `f` to the last element of a list (`frames[-1]`).  On `[]` the
Python source would raise `IndexError`; that state is unreachable from
`Interpreter.run`, and the model returns `[]` there. -/
def mapLast {α : Type} (f : α → α) : List α → List α
  | [] => []
  | [x] => [f x]
  | x :: xs => x :: mapLast f xs

/-- Helper for `Store.set`: update the nearest (closest-to-top) frame that
already binds `name`; `none` if no frame does. -/
def storeSetAux (frames : List Frame) (name : String) (v : Value) : Option (List Frame) :=
  match frames with
  | [] => Option.none
  | fr :: rest =>
    match storeSetAux rest name v with
    | some rest' => some (fr :: rest')
    | Option.none =>
      if (dictGet fr name).isSome then some (dictSet fr name v :: rest) else Option.none

/-- `Store.set`: assign to the nearest existing binding, else create in the
top frame. -/
def storeSet (frames : List Frame) (name : String) (v : Value) : List Frame :=
  match storeSetAux frames name v with
  | some fs => fs
  | Option.none => mapLast (fun fr => dictSet fr name v) frames

/-- `Store.declare`: bind in the top frame. -/
def storeDeclare (frames : List Frame) (name : String) (v : Value) : List Frame :=
  mapLast (fun fr => dictSet fr name v) frames

def storePush (frames : List Frame) : List Frame := frames ++ [[]]

def storePop (frames : List Frame) : List Frame := frames.dropLast

/-! ## AST (vendored `handc/ast.py` used by the interpreter) -/

inductive TypeExpr where
  | name (n : String)
  | app (base : String) (args : List TypeExpr)
  | optional (inner : TypeExpr)

structure Param where
  name : String
  type : Option TypeExpr

inductive Expr where
  | literal (kind : String) (value : Value)  -- kind ∈ Int|Float|Bool|Null|Text
  | var (name : String)
  | unary (op : String) (expr : Expr)
  | binary (left : Expr) (op : String) (right : Expr)
  | call (callee : String) (args : List Expr)
  | paren (expr : Expr)

inductive Stmt where
  | funcDef (name : String) (params : List Param) (returnType : Option TypeExpr)
      (body : List Stmt)
  | ifStmt (cond : Expr) (thenBody : List Stmt) (elseBody : Option (List Stmt))
  | whileStmt (cond : Expr) (body : List Stmt)
  | returnStmt (value : Option Expr)
  | showStmt (value : Expr)
  | assign (name : String) (declaredType : Option TypeExpr) (value : Expr)
  | verifyStmt (expr : Expr)
  | exprStmt (expr : Expr)

/-- Python `type(s).__name__` for statement nodes (runtime error messages). -/
def Stmt.pyName : Stmt → String
  | .funcDef .. => "FuncDef"
  | .ifStmt .. => "IfStmt"
  | .whileStmt .. => "WhileStmt"
  | .returnStmt _ => "ReturnStmt"
  | .showStmt _ => "ShowStmt"
  | .assign .. => "AssignStmt"
  | .verifyStmt _ => "VerifyStmt"
  | .exprStmt _ => "ExprStmt"

def Expr.pyName : Expr → String
  | .literal .. => "Literal"
  | .var _ => "Var"
  | .unary .. => "Unary"
  | .binary .. => "Binary"
  | .call .. => "Call"
  | .paren _ => "Paren"

inductive TopItem where
  | sec (emoji header : String) (hasColon : Bool) (body : Option (List Stmt))
  | stmt (s : Stmt)

structure Program where
  items : List TopItem

/-! ## The interpreter's mutable state

The trace keeps each event's step number and kind.  The source also stores a
`detail` dict of human-readable strings; no claim reads it and it influences
no control flow, so it is not carried (the step counter, which does gate
execution through HND-RT-9999, is modelled exactly). -/

structure TraceEvent where
  step : Nat
  kind : String
deriving DecidableEq, Repr

structure FuncInfo where
  params : List Param
  body : List Stmt

structure InterpState where
  inputs : List String
  inputI : Nat
  maxSteps : Nat
  maxLoopIters : Nat
  step : Nat
  trace : List TraceEvent
  outputs : List String
  frames : List Frame
  functions : List (String × FuncInfo)

def initState (inputs : List String) : InterpState :=
  { inputs := inputs, inputI := 0, maxSteps := 200000, maxLoopIters := 1000000,
    step := 0, trace := [], outputs := [], frames := [[]], functions := [] }

/-- `Interpreter._emit`: bump the step counter, fail with HND-RT-9999 past
the limit (the event is then NOT appended), else append the event. -/
def emit (st : InterpState) (kind : String) : Option PyExc × InterpState :=
  let st' := { st with step := st.step + 1 }
  if st'.step > st'.maxSteps then
    (some (.hand "HND-RT-9999" "Step limit exceeded (possible infinite loop)."), st')
  else
    (Option.none, { st' with trace := st'.trace ++ [⟨st'.step, kind⟩] })

/-- `Interpreter._unescape_string`: strings come from the lexer with their
quotes; minimal escapes, with the v0.1 quirk that `\\n`/`\\t` (a doubled
backslash before `n`/`t`) also decode to newline/tab; unknown escapes drop
the backslash and keep the escaped character. -/
def unescapeBody : List Char → List Char
  | [] => []
  | ch :: rest =>
    if ch != '\\' then ch :: unescapeBody rest
    else
      match rest with
      | [] => ['\\']
      | nxt :: rest2 =>
        -- quirk branch (`i+2 < len(body)` and `body[i+2] in ("n","t")`):
        -- a doubled backslash before `n`/`t` decodes to newline/tab
        match rest2 with
        | c2 :: rest3 =>
          if nxt == '\\' && (c2 == 'n' || c2 == 't') then
            (if c2 == 'n' then '\n' else '\t') :: unescapeBody rest3
          else
            (if nxt == 'n' then '\n'
             else if nxt == 't' then '\t'
             else if nxt == '\\' then '\\'
             else if nxt == '"' then '"'
             else nxt) :: unescapeBody (c2 :: rest3)
        | [] =>
          [if nxt == 'n' then '\n'
           else if nxt == 't' then '\t'
           else if nxt == '\\' then '\\'
           else if nxt == '"' then '"'
           else nxt]

def unescape_string (s : String) : String :=
  let cs := s.data
  if cs.length ≥ 2 && cs.head? == some '"' && cs.getLast? == some '"' then
    String.mk (unescapeBody (cs.drop 1).dropLast)
  else s

/-! ## Execution results -/

inductive ERes where
  | val (v : Value)
  | exc (e : PyExc)
  | fuel
deriving DecidableEq, Repr

inductive SRes where
  | done
  | ret (v : Value)   -- `_ReturnSignal`
  | exc (e : PyExc)
  | fuel
deriving DecidableEq, Repr

/-- Argument-list evaluation result (used only by `evalArgs`). -/
inductive ARes where
  | vals (vs : List Value)
  | exc (e : PyExc)
  | fuel
deriving DecidableEq, Repr

/-- Sequence an expression result: propagate exceptions and fuel-outs. -/
def bindE (r : ERes × InterpState) (f : Value → InterpState → ERes × InterpState) :
    ERes × InterpState :=
  match r with
  | (.val v, st) => f v st
  | (.exc e, st) => (.exc e, st)
  | (.fuel, st) => (.fuel, st)

/-- Sequence an expression result into statement execution. -/
def bindES (r : ERes × InterpState) (f : Value → InterpState → SRes × InterpState) :
    SRes × InterpState :=
  match r with
  | (.val v, st) => f v st
  | (.exc e, st) => (.exc e, st)
  | (.fuel, st) => (.fuel, st)

/-- Run `_emit` then continue (expression position). -/
def withEmitE (st : InterpState) (kind : String) (f : InterpState → ERes × InterpState) :
    ERes × InterpState :=
  match emit st kind with
  | (some e, st') => (.exc e, st')
  | (Option.none, st') => f st'

/-- Run `_emit` then continue (statement position). -/
def withEmitS (st : InterpState) (kind : String) (f : InterpState → SRes × InterpState) :
    SRes × InterpState :=
  match emit st kind with
  | (some e, st') => (.exc e, st')
  | (Option.none, st') => f st'

/-- `Interpreter._ask`: fail on an exhausted input queue, else consume the
head and emit an `io` event. -/
def doAsk (st : InterpState) : ERes × InterpState :=
  if st.inputI ≥ st.inputs.length then
    (.exc (.hand "HND-RT-0101"
      "ask() requested input but no more mocked inputs were provided."), st)
  else
    let val := st.inputs.getD st.inputI ""
    let st := { st with inputI := st.inputI + 1 }
    withEmitE st "io" (fun st => (.val (.str val), st))

/-- `Interpreter._show`: append the stringified value to Ω, emit `io`. -/
def doShow (st : InterpState) (v : Value) : Option PyExc × InterpState :=
  let st := { st with outputs := st.outputs ++ [reprValue v] }
  emit st "io"

mutual

/-- `Interpreter.eval_expr`, fueled.  Every recursive call spends one unit of
fuel; `ERes.fuel` is a modelling artefact that the Python source has no
counterpart for. -/
def evalExpr : Nat → InterpState → Expr → ERes × InterpState
  | 0, st, _ => (.fuel, st)
  | fuel + 1, st, e =>
    withEmitE st "eval_expr" fun st =>
      match e with
      | .literal kind v =>
        if kind == "Text" then
          match v with
          | .str s => (.val (.str (unescape_string s)), st)
          | _ => (.val v, st)  -- parser-produced Text literals are strings
        else (.val v, st)
      | .var name =>
        match storeGet st.frames name with
        | some v => (.val v, st)
        | Option.none =>
          (.exc (.hand "HND-RT-0001" s!"Undefined variable \x27{name}\x27."), st)
      | .paren inner => evalExpr fuel st inner
      | .unary op inner =>
        bindE (evalExpr fuel st inner) fun v st =>
          if op == "-" then
            if v.isPyNum then
              match v.asNum with
              | some (.inl n) => (.val (.int (-n)), st)
              | some (.inr q) => (.val (.float (-q)), st)
              | Option.none => (.val v, st)  -- unreachable given isPyNum
            else
              (.exc (.hand "HND-RT-0201"
                s!"Unary \x27-\x27 expects number, got {v.pyTypeName}."), st)
          else (.exc (.hand "HND-RT-0200" s!"Unknown unary operator \x27{op}\x27."), st)
      | .binary l op r =>
        bindE (evalExpr fuel st l) fun a st =>
          bindE (evalExpr fuel st r) fun b st =>
            match eval_bin a op b with
            | .ok v => (.val v, st)
            | .error e => (.exc e, st)
      | .call callee args =>
        if callee == "ask" then
          match args with
          | [a] => bindE (evalExpr fuel st a) fun _p st => doAsk st
          | _ => (.exc (.hand "HND-RT-0102" "ask(prompt) expects exactly 1 argument."), st)
        else if callee == "show" then
          match args with
          | [a] =>
            bindE (evalExpr fuel st a) fun v st =>
              match doShow st v with
              | (some e, st) => (.exc e, st)
              | (Option.none, st) => (.val .null, st)
          | _ => (.exc (.hand "HND-RT-0103" "show(value) expects exactly 1 argument."), st)
        else
          match dictGet st.functions callee with
          | Option.none =>
            (.exc (.hand "HND-RT-0301" s!"Unknown function \x27{callee}\x27."), st)
          | some fn =>
            if args.length != fn.params.length then
              (.exc (.hand "HND-RT-0302"
                s!"Function \x27{callee}\x27 expects {fn.params.length} args, got {args.length}."), st)
            else
              match evalArgs fuel st args with
              | (.exc e, stA) => (.exc e, stA)
              | (.fuel, stA) => (.fuel, stA)
              | (.vals argvals, stA) =>
                withEmitE stA "call" fun stA => callUser fuel stA fn argvals

/-- Evaluate a call's arguments left to right (`[self.eval_expr(a) for a in e.args]`). -/
def evalArgs : Nat → InterpState → List Expr → ARes × InterpState
  | _, st, [] => (.vals [], st)
  | 0, st, _ :: _ => (.fuel, st)
  | fuel + 1, st, a :: rest =>
    match evalExpr fuel st a with
    | (.val v, st) =>
      match evalArgs fuel st rest with
      | (.vals vs, st) => (.vals (v :: vs), st)
      | other => other
    | (.exc e, st) => (.exc e, st)
    | (.fuel, st) => (.fuel, st)

/-- `Interpreter._call_user`: push a frame, bind parameters, run the body,
catch the return signal; the frame is popped on every exit path
(`try/finally`). -/
def callUser : Nat → InterpState → FuncInfo → List Value → ERes × InterpState
  | 0, st, _, _ => (.fuel, st)
  | fuel + 1, st, fn, argvals =>
    let st := { st with frames := storePush st.frames }
    let st := (fn.params.zip argvals).foldl
      (fun st pv => { st with frames := storeDeclare st.frames pv.1.name pv.2 }) st
    match execStmts fuel st fn.body with
    | (.done, st) => (.val .null, { st with frames := storePop st.frames })
    | (.ret v, st) => (.val v, { st with frames := storePop st.frames })
    | (.exc e, st) => (.exc e, { st with frames := storePop st.frames })
    | (.fuel, st) => (.fuel, { st with frames := storePop st.frames })

/-- `Interpreter.exec_stmt`. -/
def execStmt : Nat → InterpState → Stmt → SRes × InterpState
  | 0, st, _ => (.fuel, st)
  | fuel + 1, st, s =>
    withEmitS st "enter_stmt" fun st =>
      match s with
      | .assign name _dt value =>
        bindES (evalExpr fuel st value) fun v st =>
          let st := { st with frames := storeSet st.frames name v }
          withEmitS st "assign" fun st =>
            withEmitS st "exit_stmt" fun st => (.done, st)
      | .exprStmt e =>
        bindES (evalExpr fuel st e) fun _ st =>
          withEmitS st "exit_stmt" fun st => (.done, st)
      | .showStmt e =>
        bindES (evalExpr fuel st e) fun v st =>
          match doShow st v with
          | (some exc, st) => (.exc exc, st)
          | (Option.none, st) =>
            withEmitS st "exit_stmt" fun st => (.done, st)
      | .verifyStmt e =>
        bindES (evalExpr fuel st e) fun ok st =>
          match ok with
          | .bool okb =>
            withEmitS st "verify" fun st =>
              if !okb then (.exc (.hand "HND-RT-0401" "VERIFY failed."), st)
              else withEmitS st "exit_stmt" fun st => (.done, st)
          | _ =>
            (.exc (.hand "HND-RT-0402"
              s!"VERIFY expects Bool, got {ok.pyTypeName}."), st)
      | .ifStmt cond thenB elseB =>
        bindES (evalExpr fuel st cond) fun c st =>
          match c with
          | .bool cb =>
            withEmitS st "branch" fun st =>
              let body := if cb then thenB else elseB.getD []
              let st := { st with frames := storePush st.frames }
              match execStmts fuel st body with
              | (.done, st) =>
                let st := { st with frames := storePop st.frames }
                withEmitS st "exit_stmt" fun st => (.done, st)
              | (r, st) => (r, { st with frames := storePop st.frames })
          | _ => (.exc (.hand "HND-RT-0501" "if condition must be Bool."), st)
      | .whileStmt cond body => whileLoop fuel st cond body 1
      | .returnStmt value =>
        match value with
        | Option.none =>
          withEmitS st "return" fun st => (.ret .null, st)
        | some e =>
          bindES (evalExpr fuel st e) fun v st =>
            withEmitS st "return" fun st => (.ret v, st)
      | s =>
        (.exc (.hand "HND-RT-0003" s!"Unsupported statement node: {s.pyName}."), st)

/-- The `while True:` loop inside `exec_stmt`'s `WhileStmt` branch; `it` is
the 1-based iteration counter. -/
def whileLoop : Nat → InterpState → Expr → List Stmt → Nat → SRes × InterpState
  | 0, st, _, _, _ => (.fuel, st)
  | fuel + 1, st, cond, body, it =>
    if it > st.maxLoopIters then
      (.exc (.hand "HND-RT-9998" "Loop iteration limit exceeded."), st)
    else
      bindES (evalExpr fuel st cond) fun c st =>
        match c with
        | .bool cb =>
          withEmitS st "loop_check" fun st =>
            if !cb then
              withEmitS st "exit_stmt" fun st => (.done, st)
            else
              let st := { st with frames := storePush st.frames }
              match execStmts fuel st body with
              | (.done, st) =>
                whileLoop fuel { st with frames := storePop st.frames } cond body (it + 1)
              | (r, st) => (r, { st with frames := storePop st.frames })
        | _ => (.exc (.hand "HND-RT-0601" "while condition must be Bool."), st)

def execStmts : Nat → InterpState → List Stmt → SRes × InterpState
  | _, st, [] => (.done, st)
  | 0, st, _ :: _ => (.fuel, st)
  | fuel + 1, st, s :: rest =>
    match execStmt fuel st s with
    | (.done, st) => execStmts fuel st rest
    | other => other

end

/-! ## Program loading and `Interpreter.run` -/

/-- `Interpreter.load_program`: collect top-level statements (section bodies
are inlined) and register function definitions. -/
def loadProgram (st : InterpState) (p : Program) : List Stmt × InterpState :=
  p.items.foldl
    (fun acc item =>
      let (top, st) := acc
      match item with
      | .sec _ _ _ body => (top ++ body.getD [], st)
      | .stmt (.funcDef name params _rt body) =>
        (top, { st with functions := dictSet st.functions name ⟨params, body⟩ })
      | .stmt s => (top ++ [s], st))
    ([], st)

/-- The observable outcome of `Interpreter.run`: a normal return carries
(Ω, Σ) where Σ is `store_snapshot()` (the global frame `frames[0]`); a
`HandRuntimeError` is re-raised after an `error` trace event; a top-level
`_ReturnSignal` and `ZeroDivisionError` propagate uncaught. -/
inductive RunRes where
  | ok (outputs : List String) (finalStore : Frame)
  | exc (e : PyExc)
  | ret (v : Value)
  | fuel
deriving DecidableEq, Repr

/-- `Interpreter.run` followed by `_finalize` (the trace-file write is I/O
outside the embedding; the returned Ω and Σ are modelled exactly). -/
def runInterp (fuel : Nat) (p : Program) (inputs : List String) : RunRes × InterpState :=
  let (top, st) := loadProgram (initState inputs) p
  match execStmts fuel st top with
  | (.done, st) => (.ok st.outputs (st.frames.headD []), st)
  | (.ret v, st) => (.ret v, st)
  | (.fuel, st) => (.fuel, st)
  | (.exc e, st) =>
    match e with
    | .hand code msg =>
      -- `except HandRuntimeError: self._emit("error", ...); raise`
      match emit st "error" with
      | (some e2, st) => (.exc e2, st)
      | (Option.none, st) => (.exc (.hand code msg), st)
    | .zeroDiv => (.exc .zeroDiv, st)

/-! ## Scope-stack bookkeeping lemmas (towards claim C10) -/

theorem mapLast_length {α : Type} (f : α → α) (l : List α) :
    (mapLast f l).length = l.length := by
  induction l with
  | nil => rfl
  | cons x xs ih =>
    cases xs with
    | nil => rfl
    | cons y ys => simpa [mapLast] using ih

theorem storeSetAux_length (frames : List Frame) (name : String) (v : Value)
    (fs : List Frame) (h : storeSetAux frames name v = some fs) :
    fs.length = frames.length := by
  induction frames generalizing fs with
  | nil => simp [storeSetAux] at h
  | cons fr rest ih =>
    rw [storeSetAux] at h
    rcases hr : storeSetAux rest name v with _ | rest'
    · rw [hr] at h
      by_cases hc : (dictGet fr name).isSome
      · simp only [hc, if_true, Option.some.injEq] at h
        subst h
        simp
      · simp [hc] at h
    · rw [hr] at h
      cases h
      simp [ih rest' hr]

theorem storeSet_length (frames : List Frame) (name : String) (v : Value) :
    (storeSet frames name v).length = frames.length := by
  rw [storeSet]
  rcases h : storeSetAux frames name v with _ | fs
  · simp [mapLast_length]
  · simpa using storeSetAux_length frames name v fs h

theorem storeDeclare_length (frames : List Frame) (name : String) (v : Value) :
    (storeDeclare frames name v).length = frames.length := mapLast_length _ _

theorem emit_frames (st : InterpState) (kind : String) :
    (emit st kind).2.frames = st.frames := by
  rw [emit]; split <;> rfl

theorem withEmitE_frames_length (st : InterpState) (kind : String)
    (f : InterpState → ERes × InterpState) (n : Nat) (hst : st.frames.length = n)
    (hf : ∀ st', st'.frames.length = n → (f st').2.frames.length = n) :
    (withEmitE st kind f).2.frames.length = n := by
  rw [withEmitE]
  rcases h : emit st kind with ⟨e?, st'⟩
  have hfr : st'.frames = st.frames := by
    have := emit_frames st kind; rw [h] at this; exact this
  cases e? with
  | none => exact hf st' (by rw [hfr]; exact hst)
  | some e => simpa [hfr] using hst

theorem withEmitS_frames_length (st : InterpState) (kind : String)
    (f : InterpState → SRes × InterpState) (n : Nat) (hst : st.frames.length = n)
    (hf : ∀ st', st'.frames.length = n → (f st').2.frames.length = n) :
    (withEmitS st kind f).2.frames.length = n := by
  rw [withEmitS]
  rcases h : emit st kind with ⟨e?, st'⟩
  have hfr : st'.frames = st.frames := by
    have := emit_frames st kind; rw [h] at this; exact this
  cases e? with
  | none => exact hf st' (by rw [hfr]; exact hst)
  | some e => simpa [hfr] using hst

theorem bindE_frames_length (r : ERes × InterpState)
    (f : Value → InterpState → ERes × InterpState) (n : Nat)
    (hr : r.2.frames.length = n)
    (hf : ∀ v st, st.frames.length = n → (f v st).2.frames.length = n) :
    (bindE r f).2.frames.length = n := by
  rcases r with ⟨res, st⟩
  cases res with
  | val v => exact hf v st hr
  | exc e => exact hr
  | fuel => exact hr

theorem bindES_frames_length (r : ERes × InterpState)
    (f : Value → InterpState → SRes × InterpState) (n : Nat)
    (hr : r.2.frames.length = n)
    (hf : ∀ v st, st.frames.length = n → (f v st).2.frames.length = n) :
    (bindES r f).2.frames.length = n := by
  rcases r with ⟨res, st⟩
  cases res with
  | val v => exact hf v st hr
  | exc e => exact hr
  | fuel => exact hr

theorem doAsk_frames_length (st : InterpState) (n : Nat) (h : st.frames.length = n) :
    (doAsk st).2.frames.length = n := by
  rw [doAsk]
  split
  · exact h
  · exact withEmitE_frames_length _ _ _ n h (fun st' h' => h')

theorem doShow_frames (st : InterpState) (v : Value) :
    (doShow st v).2.frames = st.frames := by
  rw [doShow]; exact emit_frames _ _

theorem declareParams_frames_length (l : List (Param × Value)) (st : InterpState)
    (n : Nat) (h : st.frames.length = n) :
    (l.foldl (fun st pv => { st with frames := storeDeclare st.frames pv.1.name pv.2 }) st).frames.length = n := by
  induction l generalizing st with
  | nil => exact h
  | cons pv rest ih =>
    exact ih _ (by simp [storeDeclare_length, h])

/-- The scope stack is balanced on every exit path: each of the mutually
recursive evaluation functions leaves `store.frames` at its entry length,
whatever the outcome (normal, return signal, runtime error, or fuel). -/
theorem framesLengthInvariant (fuel : Nat) :
    (∀ st e, (evalExpr fuel st e).2.frames.length = st.frames.length) ∧
    (∀ st as, (evalArgs fuel st as).2.frames.length = st.frames.length) ∧
    (∀ st fn args, (callUser fuel st fn args).2.frames.length = st.frames.length) ∧
    (∀ st s, (execStmt fuel st s).2.frames.length = st.frames.length) ∧
    (∀ st c b it, (whileLoop fuel st c b it).2.frames.length = st.frames.length) ∧
    (∀ st ss, (execStmts fuel st ss).2.frames.length = st.frames.length) := by
  induction fuel with
  | zero =>
    refine ⟨fun st e => rfl, fun st as => ?_, fun st fn args => rfl,
      fun st s => rfl, fun st c b it => rfl, fun st ss => ?_⟩
    · cases as <;> rfl
    · cases ss <;> rfl
  | succ fuel ih =>
    obtain ⟨ihE, ihA, ihC, ihS, ihW, ihSS⟩ := ih
    have hcall : ∀ st fn args, (callUser (fuel + 1) st fn args).2.frames.length = st.frames.length := by
      intro st fn args
      rw [callUser]
      have h1 : ((fn.params.zip args).foldl
          (fun (s : InterpState) pv => { s with frames := storeDeclare s.frames pv.1.name pv.2 })
          { st with frames := storePush st.frames }).frames.length = st.frames.length + 1 := by
        apply declareParams_frames_length
        simp [storePush]
      rcases hb : execStmts fuel ((fn.params.zip args).foldl
          (fun (s : InterpState) pv => { s with frames := storeDeclare s.frames pv.1.name pv.2 })
          { st with frames := storePush st.frames }) fn.body with ⟨r, st'⟩
      have h2 : st'.frames.length = st.frames.length + 1 := by
        have hx := ihSS ((fn.params.zip args).foldl
            (fun (s : InterpState) pv => { s with frames := storeDeclare s.frames pv.1.name pv.2 })
            { st with frames := storePush st.frames }) fn.body
        rw [hb] at hx
        simpa [h1] using hx
      cases r <;> simp [hb, storePop, List.length_dropLast, h2]
    have hevalE : ∀ st e, (evalExpr (fuel + 1) st e).2.frames.length = st.frames.length := by
      intro st e
      rw [evalExpr]
      apply withEmitE_frames_length _ _ _ _ rfl
      intro st' h'
      cases e with
      | literal kind v =>
        dsimp only
        split
        · split <;> exact h'
        · exact h'
      | var name =>
        dsimp only
        split <;> exact h'
      | paren inner => simpa [ihE st' inner] using h'
      | unary op inner =>
        dsimp only
        apply bindE_frames_length _ _ _ (by simpa [ihE st' inner] using h')
        intro v st'' h''
        split
        · split
          · split <;> exact h''
          · exact h''
        · exact h''
      | binary l op r =>
        dsimp only
        apply bindE_frames_length _ _ _ (by simpa [ihE st' l] using h')
        intro a st'' h''
        apply bindE_frames_length _ _ _ (by simpa [ihE st'' r] using h'')
        intro b st''' h'''
        split <;> exact h'''
      | call callee args =>
        dsimp only
        split
        · split
          · apply bindE_frames_length _ _ _ (by simp [ihE]; exact h')
            intro v st'' h''
            exact doAsk_frames_length _ _ h''
          · exact h'
        · split
          · split
            · apply bindE_frames_length _ _ _ (by simp [ihE]; exact h')
              intro v st'' h''
              rcases hs : doShow st'' v with ⟨e?, st3⟩
              have : st3.frames = st''.frames := by
                have := doShow_frames st'' v; rw [hs] at this; exact this
              cases e? <;> simpa [this] using h''
            · exact h'
          · split
            · exact h'
            · split
              · exact h'
              · rcases ha : evalArgs fuel st' args with ⟨ra, stA⟩
                have hA : stA.frames.length = st.frames.length := by
                  have := ihA st' args; rw [ha] at this; simpa [h'] using this
                cases ra with
                | exc e => simpa using hA
                | fuel => simpa using hA
                | vals argvals =>
                  dsimp only
                  apply withEmitE_frames_length _ _ _ _ hA
                  intro st4 h4
                  simpa [ihC st4] using h4
    have hargs : ∀ st as, (evalArgs (fuel + 1) st as).2.frames.length = st.frames.length := by
      intro st as
      cases as with
      | nil => rfl
      | cons a rest =>
        rw [evalArgs]
        rcases h1 : evalExpr fuel st a with ⟨r1, st1⟩
        have hst1 : st1.frames.length = st.frames.length := by
          have := ihE st a; rw [h1] at this; exact this
        cases r1 with
        | val v =>
          dsimp only
          rcases h2 : evalArgs fuel st1 rest with ⟨r2, st2⟩
          have hst2 : st2.frames.length = st.frames.length := by
            have := ihA st1 rest; rw [h2] at this; simpa [hst1] using this
          cases r2 <;> simpa using hst2
        | exc e => simpa using hst1
        | fuel => simpa using hst1
    have hwhile : ∀ st c b it, (whileLoop (fuel + 1) st c b it).2.frames.length = st.frames.length := by
      intro st c b it
      rw [whileLoop]
      split
      · rfl
      · apply bindES_frames_length _ _ _ (by simpa using ihE st c)
        intro v st' h'
        cases v with
        | bool cb =>
          dsimp only
          apply withEmitS_frames_length _ _ _ _ h'
          intro st'' h''
          split
          · exact withEmitS_frames_length _ _ _ _ h'' (fun st3 h3 => h3)
          · rcases hb : execStmts fuel { st'' with frames := storePush st''.frames } b with ⟨r, st3⟩
            have h3 : st3.frames.length = st.frames.length + 1 := by
              have := ihSS { st'' with frames := storePush st''.frames } b
              rw [hb] at this
              simpa [storePush, h''] using this
            cases r with
            | done =>
              dsimp only
              have := ihW { st3 with frames := storePop st3.frames } c b (it + 1)
              simpa [storePop, List.length_dropLast, h3] using this
            | ret v => simpa [storePop, List.length_dropLast, h3] using rfl
            | exc e => simpa [storePop, List.length_dropLast, h3] using rfl
            | fuel => simpa [storePop, List.length_dropLast, h3] using rfl
        | null => exact h'
        | int n => exact h'
        | float q => exact h'
        | str s => exact h'
    have hstmt : ∀ st s, (execStmt (fuel + 1) st s).2.frames.length = st.frames.length := by
      intro st s
      rw [execStmt]
      apply withEmitS_frames_length _ _ _ _ rfl
      intro st' h'
      cases s with
      | assign name dt value =>
        dsimp only
        apply bindES_frames_length _ _ _ (by simpa [ihE st' value] using h')
        intro v st'' h''
        apply withEmitS_frames_length _ _ _ _ (by simpa [storeSet_length] using h'')
        intro st3 h3
        exact withEmitS_frames_length _ _ _ _ h3 (fun st4 h4 => h4)
      | exprStmt e =>
        dsimp only
        apply bindES_frames_length _ _ _ (by simpa [ihE st' e] using h')
        intro v st'' h''
        exact withEmitS_frames_length _ _ _ _ h'' (fun st3 h3 => h3)
      | showStmt e =>
        dsimp only
        apply bindES_frames_length _ _ _ (by simpa [ihE st' e] using h')
        intro v st'' h''
        rcases hs : doShow st'' v with ⟨e?, st3⟩
        have h3 : st3.frames = st''.frames := by
          have := doShow_frames st'' v; rw [hs] at this; exact this
        cases e? with
        | some exc => simpa [h3] using h''
        | none =>
          dsimp only
          exact withEmitS_frames_length _ _ _ _ (by simpa [h3] using h'') (fun st4 h4 => h4)
      | verifyStmt e =>
        dsimp only
        apply bindES_frames_length _ _ _ (by simpa [ihE st' e] using h')
        intro v st'' h''
        cases v with
        | bool okb =>
          dsimp only
          apply withEmitS_frames_length _ _ _ _ h''
          intro st3 h3
          split
          · exact h3
          · exact withEmitS_frames_length _ _ _ _ h3 (fun st4 h4 => h4)
        | null => exact h''
        | int n => exact h''
        | float q => exact h''
        | str s => exact h''
      | ifStmt cond thenB elseB =>
        dsimp only
        apply bindES_frames_length _ _ _ (by simpa [ihE st' cond] using h')
        intro c st'' h''
        cases c with
        | bool cb =>
          dsimp only
          apply withEmitS_frames_length _ _ _ _ h''
          intro st3 h3
          rcases hb : execStmts fuel { st3 with frames := storePush st3.frames }
              (if cb then thenB else elseB.getD []) with ⟨r, st4⟩
          have h4 : st4.frames.length = st.frames.length + 1 := by
            have := ihSS { st3 with frames := storePush st3.frames }
              (if cb then thenB else elseB.getD [])
            rw [hb] at this
            simpa [storePush, h3] using this
          cases r with
          | done =>
            dsimp only
            apply withEmitS_frames_length _ _ _ _
              (by simpa [storePop, List.length_dropLast, h4] using rfl)
            exact fun st5 h5 => h5
          | ret v => simpa [storePop, List.length_dropLast, h4] using rfl
          | exc e => simpa [storePop, List.length_dropLast, h4] using rfl
          | fuel => simpa [storePop, List.length_dropLast, h4] using rfl
        | null => exact h''
        | int n => exact h''
        | float q => exact h''
        | str s => exact h''
      | whileStmt cond body => exact (ihW st' cond body 1).trans h'
      | returnStmt value =>
        cases value with
        | none =>
          dsimp only
          exact withEmitS_frames_length _ _ _ _ h' (fun st3 h3 => h3)
        | some e =>
          dsimp only
          apply bindES_frames_length _ _ _ (by simpa [ihE st' e] using h')
          intro v st'' h''
          exact withEmitS_frames_length _ _ _ _ h'' (fun st3 h3 => h3)
      | funcDef name params rt body => exact h'
    have hstmts : ∀ st ss, (execStmts (fuel + 1) st ss).2.frames.length = st.frames.length := by
      intro st ss
      cases ss with
      | nil => rfl
      | cons s rest =>
        rw [execStmts]
        rcases h1 : execStmt fuel st s with ⟨r1, st1⟩
        have hst1 : st1.frames.length = st.frames.length := by
          have := ihS st s; rw [h1] at this; exact this
        cases r1 with
        | done =>
          dsimp only
          have := ihSS st1 rest
          simpa [hst1] using this
        | ret v => simpa using hst1
        | exc e => simpa using hst1
        | fuel => simpa using hst1
    exact ⟨hevalE, hargs, hcall, hstmt, hwhile, hstmts⟩

theorem loadProgram_frames (st : InterpState) (p : Program) :
    (loadProgram st p).2.frames = st.frames ∧
    (loadProgram st p).2.outputs = st.outputs := by
  rw [loadProgram]
  suffices h : ∀ items : List TopItem, ∀ acc : List Stmt × InterpState,
      (items.foldl (fun acc item =>
        let (top, st) := acc
        match item with
        | TopItem.sec _ _ _ body => (top ++ body.getD [], st)
        | TopItem.stmt (.funcDef name params _rt body) =>
          (top, { st with functions := dictSet st.functions name ⟨params, body⟩ })
        | TopItem.stmt s => (top ++ [s], st)) acc).2.frames = acc.2.frames ∧
      (items.foldl (fun acc item =>
        let (top, st) := acc
        match item with
        | TopItem.sec _ _ _ body => (top ++ body.getD [], st)
        | TopItem.stmt (.funcDef name params _rt body) =>
          (top, { st with functions := dictSet st.functions name ⟨params, body⟩ })
        | TopItem.stmt s => (top ++ [s], st)) acc).2.outputs = acc.2.outputs by
    exact h p.items ([], st)
  intro items
  induction items with
  | nil => intro acc; exact ⟨rfl, rfl⟩
  | cons item rest ih =>
    intro acc
    rcases acc with ⟨top, st0⟩
    cases item with
    | sec a b c body => simpa using ih (top ++ body.getD [], st0)
    | stmt s =>
      cases s with
      | funcDef name params rt body =>
        simpa using ih (top, { st0 with functions := dictSet st0.functions name ⟨params, body⟩ })
      | ifStmt c t e => simpa using ih (top ++ [Stmt.ifStmt c t e], st0)
      | whileStmt c b => simpa using ih (top ++ [Stmt.whileStmt c b], st0)
      | returnStmt v => simpa using ih (top ++ [Stmt.returnStmt v], st0)
      | showStmt v => simpa using ih (top ++ [Stmt.showStmt v], st0)
      | assign n d v => simpa using ih (top ++ [Stmt.assign n d v], st0)
      | verifyStmt e => simpa using ih (top ++ [Stmt.verifyStmt e], st0)
      | exprStmt e => simpa using ih (top ++ [Stmt.exprStmt e], st0)

/-- **C10.** The interpreter's scope stack is balanced on every exit path:
each frame pushed for an `if` body, a `while`-iteration body, or a function
call is popped even when a runtime error or a return signal propagates out
(all three sites use `try/finally`), so after `Interpreter.run` finishes —
normally, with a propagating exception, or with an escaping return signal —
`store.frames` is exactly the single global frame it started with. -/
theorem c10_scope_stack_balanced (fuel : Nat) (p : Program) (inputs : List String) :
    ∃ g : Frame, (runInterp fuel p inputs).2.frames = [g] := by
  rw [runInterp]
  rcases hl : loadProgram (initState inputs) p with ⟨top, st0⟩
  have hfr : st0.frames = [[]] := by
    have := (loadProgram_frames (initState inputs) p).1
    rw [hl] at this
    simpa [initState] using this
  rcases he : execStmts fuel st0 top with ⟨r, st1⟩
  have hlen : st1.frames.length = 1 := by
    have := (framesLengthInvariant fuel).2.2.2.2.2 st0 top
    rw [he] at this
    simp [hfr] at this
    exact this
  obtain ⟨g, hg⟩ : ∃ g : Frame, st1.frames = [g] := by
    rcases hfs : st1.frames with _ | ⟨g, rest⟩
    · rw [hfs] at hlen; simp at hlen
    · rw [hfs] at hlen
      simp at hlen
      exact ⟨g, by simp [hfs, hlen]⟩
  simp only [hl]
  rw [he]
  cases r with
  | done => exact ⟨g, hg⟩
  | ret v => exact ⟨g, hg⟩
  | fuel => exact ⟨g, hg⟩
  | exc e =>
    cases e with
    | hand code msg =>
      dsimp only
      rcases hm : emit st1 "error" with ⟨e?, st2⟩
      have h2 : st2.frames = st1.frames := by
        have := emit_frames st1 "error"; rw [hm] at this; exact this
      cases e? with
      | none => exact ⟨g, by rw [h2]; exact hg⟩
      | some e2 => exact ⟨g, by rw [h2]; exact hg⟩
    | zeroDiv => exact ⟨g, hg⟩

/-! ## Claim C7: equality on mixed runtime types -/

/-- **C7 counterexample.**  The claim states that `==` on two runtime values
of different types — "for example a Bool and an Int" — yields `false`.  In
the source, `_eval_bin` evaluates `a == b` with Python equality, and Python
booleans are integers: `True == 1` is `True`.  So the interpreter yields
`true` for `true == 1`. -/
theorem c7_counterexample :
    eval_bin (.bool true) "==" (.int 1) = .ok (.bool true) ∧
    eval_bin (.bool true) "!=" (.int 1) = .ok (.bool false) := by
  constructor <;> rfl

/-- **C7 (amended).**  Evaluating `==` on two runtime values of different
types yields `false` and raises no error, and `!=` yields `true` — EXCEPT
when both operands are numbers (Python treats `bool` as an `int`, so
`true == 1` and `1 == 1.0` are `true`); the numeric cross-type comparisons
follow Python numeric equality. -/
theorem c7_mixed_type_equality (a b : Value)
    (hty : a.pyTypeName ≠ b.pyTypeName)
    (hnum : ¬(a.isPyNum = true ∧ b.isPyNum = true)) :
    eval_bin a "==" b = .ok (.bool false) ∧
    eval_bin a "!=" b = .ok (.bool true) := by
  cases a <;> cases b <;>
    simp_all [eval_bin, pyEq, Value.asNum, Value.isPyNum, Value.pyTypeName]

/-- Witness for C7: an `Int` and a `Text` runtime value. -/
theorem c7_mixed_type_equality_witness :
    eval_bin (.int 1) "==" (.str "1") = .ok (.bool false) ∧
    eval_bin (.int 1) "!=" (.str "1") = .ok (.bool true) :=
  c7_mixed_type_equality (.int 1) (.str "1") (by decide) (by decide)

/-! ## HAND-IR v0.1 (`lowering.py` output shape)

The IR is JSON in the source.  Each node kind carries exactly the keys the
lowering writes for it; notably, STATEMENT dicts carry an `origin` key while
EXPRESSION dicts do not — the expression constructors therefore carry an
`Option IROrigin` that `lower_expr` always leaves at `none` (absent key).
The `contracts` and `types` keys are always `[]` in the lowering and are read
by no modelled consumer, so they are omitted.  The module dict carries no
`origin` key. -/

structure IROrigin where
  actor : String
  ref : String
deriving DecidableEq, Repr

structure IRType where
  kind : String
  name : Option String   -- present only for Record types
  args : List IRType

inductive IRExpr where
  | lit (value : Value) (type? : Option IRType) (origin? : Option IROrigin)
  | var (name : String) (origin? : Option IROrigin)
  | unary (op : String) (expr : IRExpr) (origin? : Option IROrigin)
  | binary (op : String) (left right : IRExpr) (origin? : Option IROrigin)
  | call (callee : String) (args : List IRExpr) (origin? : Option IROrigin)

def IRExpr.originOpt : IRExpr → Option IROrigin
  | .lit _ _ o => o
  | .var _ o => o
  | .unary _ _ o => o
  | .binary _ _ _ o => o
  | .call _ _ o => o

inductive IRStmt where
  | assign (name : String) (declaredType : Option IRType) (value : IRExpr)
      (origin : IROrigin) (effects capabilities : List String)
  | exprStmt (value : IRExpr) (origin : IROrigin) (effects capabilities : List String)
  | showStmt (value : IRExpr) (origin : IROrigin) (effects capabilities : List String)
  | verifyStmt (value : IRExpr) (origin : IROrigin) (effects capabilities : List String)
  | ifStmt (cond : IRExpr) (thenB elseB : List IRStmt)
      (origin : IROrigin) (effects capabilities : List String)
  | whileStmt (cond : IRExpr) (body : List IRStmt)
      (origin : IROrigin) (effects capabilities : List String)
  | returnStmt (value : Option IRExpr) (origin : IROrigin) (effects capabilities : List String)

/-- The dict lookup `stmt.get("value")` (the `return` statement's value may
itself be the JSON `null`). -/
def IRStmt.valueField : IRStmt → Option IRExpr
  | .assign _ _ v _ _ _ => some v
  | .exprStmt v _ _ _ => some v
  | .showStmt v _ _ _ => some v
  | .verifyStmt v _ _ _ => some v
  | .returnStmt v _ _ _ => v
  | _ => Option.none

/-- `stmt.get("cond")`. -/
def IRStmt.condField : IRStmt → Option IRExpr
  | .ifStmt c _ _ _ _ _ => some c
  | .whileStmt c _ _ _ _ => some c
  | _ => Option.none

def IRStmt.origin : IRStmt → IROrigin
  | .assign _ _ _ o _ _ => o
  | .exprStmt _ o _ _ => o
  | .showStmt _ o _ _ => o
  | .verifyStmt _ o _ _ => o
  | .ifStmt _ _ _ o _ _ => o
  | .whileStmt _ _ o _ _ => o
  | .returnStmt _ o _ _ => o

def IRStmt.effects : IRStmt → List String
  | .assign _ _ _ _ e _ => e
  | .exprStmt _ _ e _ => e
  | .showStmt _ _ e _ => e
  | .verifyStmt _ _ e _ => e
  | .ifStmt _ _ _ _ e _ => e
  | .whileStmt _ _ _ e _ => e
  | .returnStmt _ _ e _ => e

def IRStmt.capabilities : IRStmt → List String
  | .assign _ _ _ _ _ c => c
  | .exprStmt _ _ _ c => c
  | .showStmt _ _ _ c => c
  | .verifyStmt _ _ _ c => c
  | .ifStmt _ _ _ _ _ c => c
  | .whileStmt _ _ _ _ c => c
  | .returnStmt _ _ _ c => c

structure IRParam where
  name : String
  type : Option IRType
  origin : IROrigin

structure IRFunction where
  name : String
  params : List IRParam
  retType : Option IRType
  body : List IRStmt
  effects : List String
  capabilities : List String
  origin : IROrigin

structure IRModule where
  name : String
  semver : String
  functions : List IRFunction
  toplevel : List IRStmt
  capabilities : List String

structure IR where
  irVersion : String
  origin : IROrigin
  module : IRModule

/-! ## Lowering (`lowering.py`) -/

/-- `_mk_origin(actor, emoji, node_id, sub, origin)`: the ref format is
`[Stage][Emoji][NodeId].[SubId]`. -/
def mk_origin (actor emoji nodeId sub stage : String) : IROrigin :=
  { actor := actor, ref := "[" ++ stage ++ "][" ++ emoji ++ "][" ++ nodeId ++ "]." ++ sub }

/-- `_IdGen`: the per-lowering-call monotone identifier source
(`n`th call yields `"N<n>"`). -/
def idNext (n : Nat) : String × Nat := (s!"N{n + 1}", n + 1)

mutual

/-- `lower_type` on a present type expression.  (The source threads the id
generator through but never consumes an id here; the `or ...Any` fallbacks
are unreachable because this function is total.) -/
def lower_type : TypeExpr → IRType
  | .name k =>
    if k == "Int" || k == "Float" || k == "Bool" || k == "Text" || k == "Null"
        || k == "Any" || k == "Never" then
      ⟨k, Option.none, []⟩
    else
      ⟨"Record", some k, []⟩
  | .optional inner => ⟨"Optional", Option.none, [lower_type inner]⟩
  | .app base args =>
    if base == "List" || base == "Map" || base == "Result" then
      ⟨base, Option.none, lower_type_list args⟩
    else if base == "Record" then
      match args with
      | .name n :: _ => ⟨"Record", some n, []⟩
      | _ => ⟨"Record", some "Record", []⟩
    else
      ⟨"Record", some base, lower_type_list args⟩
termination_by structural t => t

def lower_type_list : List TypeExpr → List IRType
  | [] => []
  | t :: ts => lower_type t :: lower_type_list ts
termination_by structural ts => ts

end

def lower_type_opt : Option TypeExpr → Option IRType
  | Option.none => Option.none
  | some te => some (lower_type te)

mutual

/-- `lower_expr`: no expression kind attaches an `origin` (the source's
dict literals have no `"origin"` key), and the id generator that is passed
in is never consumed. -/
def lower_expr : Expr → IRExpr
  | .literal kind v =>
    let t? : Option IRType :=
      if kind == "Int" || kind == "Float" || kind == "Bool" || kind == "Text"
          || kind == "Null" then
        some ⟨kind, Option.none, []⟩
      else Option.none
    .lit v t? Option.none
  | .var name => .var name Option.none
  | .paren inner => lower_expr inner
  | .unary op inner => .unary op (lower_expr inner) Option.none
  | .binary l op r => .binary op (lower_expr l) (lower_expr r) Option.none
  | .call callee args => .call callee (lower_expr_list args) Option.none
termination_by structural e => e

def lower_expr_list : List Expr → List IRExpr
  | [] => []
  | e :: es => lower_expr e :: lower_expr_list es
termination_by structural es => es

end

mutual

/-- `lower_stmt`, threading the id generator state. -/
def lower_stmt (s : Stmt) (ids : Nat) : IRStmt × Nat :=
  let (nid, ids) := idNext ids
  match s with
  | .assign name declaredType value =>
    (.assign name (lower_type_opt declaredType) (lower_expr value)
      (mk_origin "👤" "📝" nid "assign" "AST") [] [], ids)
  | .exprStmt e =>
    (.exprStmt (lower_expr e) (mk_origin "👤" "🧩" nid "expr" "AST") [] [], ids)
  | .showStmt v =>
    (.showStmt (lower_expr v) (mk_origin "👤" "📤" nid "show" "AST")
      ["io.show"] ["io"], ids)
  | .verifyStmt e =>
    (.verifyStmt (lower_expr e) (mk_origin "👤" "🔍" nid "verify" "AST")
      ["contract.verify"] [], ids)
  | .ifStmt cond thenB elseB =>
    let (thenIR, ids) := lower_stmts thenB ids
    let (elseIR, ids) :=
      match elseB with
      | some es => lower_stmts es ids
      | Option.none => ([], ids)
    (.ifStmt (lower_expr cond) thenIR elseIR (mk_origin "👤" "🧭" nid "if" "AST") [] [], ids)
  | .whileStmt cond body =>
    let (bodyIR, ids) := lower_stmts body ids
    (.whileStmt (lower_expr cond) bodyIR (mk_origin "👤" "🔁" nid "while" "AST") [] [], ids)
  | .returnStmt value =>
    (.returnStmt (value.map lower_expr) (mk_origin "👤" "↩️" nid "return" "AST")
      ["control.return"] [], ids)
  | .funcDef _ _ _ _ =>
    -- `lower_stmt` has no FuncDef branch: a nested function definition falls
    -- through to the deterministic-null fallback statement
    (.exprStmt (.lit .null (some ⟨"Null", Option.none, []⟩) Option.none)
      (mk_origin "👤" "❓" nid "unknown" "AST") [] [], ids)
termination_by structural s

def lower_stmts (ss : List Stmt) (ids : Nat) : List IRStmt × Nat :=
  match ss with
  | [] => ([], ids)
  | s :: rest =>
    let (sIR, ids) := lower_stmt s ids
    let (restIR, ids) := lower_stmts rest ids
    (sIR :: restIR, ids)
termination_by structural ss

end

/-- Lexicographic code-point comparison of strings — Python's `<` on `str`
(identical to Lean's `String.lt`, but written so the kernel can evaluate it). -/
def charListLt : List Char → List Char → Bool
  | _, [] => false
  | [], _ :: _ => true
  | c :: cs, d :: ds =>
    if c.toNat < d.toNat then true
    else if d.toNat < c.toNat then false
    else charListLt cs ds

def pyStrLt (a b : String) : Bool := charListLt a.data b.data

/-- Sorted insertion into a sorted duplicate-free list (models adding an
element to a Python set that is only ever iterated through `sorted(...)`). -/
def insertSorted (x : String) : List String → List String
  | [] => [x]
  | y :: ys =>
    if pyStrLt x y then x :: y :: ys
    else if x == y then y :: ys
    else y :: insertSorted x ys

/-- `sorted(set(xs))`. -/
def sortDedup (xs : List String) : List String :=
  xs.foldl (fun acc x => insertSorted x acc) []

mutual

/-- The statement-effect/capability walk inside `lower_function`
(recurses into `if` and `while` bodies). -/
def walkEffectsCaps : IRStmt → List String × List String
  | .ifStmt _ t e _ eff caps =>
    let tw := walkEffectsCapsList t
    let ew := walkEffectsCapsList e
    (eff ++ tw.1 ++ ew.1, caps ++ tw.2 ++ ew.2)
  | .whileStmt _ b _ eff caps =>
    let bw := walkEffectsCapsList b
    (eff ++ bw.1, caps ++ bw.2)
  | s => (s.effects, s.capabilities)
termination_by structural s => s

def walkEffectsCapsList : List IRStmt → List String × List String
  | [] => ([], [])
  | s :: rest =>
    let sw := walkEffectsCaps s
    let rw := walkEffectsCapsList rest
    (sw.1 ++ rw.1, sw.2 ++ rw.2)
termination_by structural ss => ss

end

/-- The parameter-lowering loop of `lower_function`. -/
def lower_params (params : List Param) (acc : List IRParam × Nat) : List IRParam × Nat :=
  params.foldl
    (fun acc p =>
      let (ps, ids) := acc
      let (pid, ids) := idNext ids
      (ps ++ [(⟨p.name, lower_type_opt p.type,
        mk_origin "👤" "🏷️" pid ("param_" ++ p.name) "AST"⟩ : IRParam)], ids))
    acc

/-- `lower_function`. -/
def lower_function (name : String) (params : List Param) (returnType : Option TypeExpr)
    (body : List Stmt) (ids : Nat) : IRFunction × Nat :=
  let (nid, ids) := idNext ids
  let (bodyIR, ids) := lower_stmts body ids
  let walked := walkEffectsCapsList bodyIR
  let effects := sortDedup walked.1
  let caps := sortDedup walked.2
  let (paramsIR, ids) := lower_params params ([], ids)
  ({ name := name, params := paramsIR, retType := lower_type_opt returnType,
     body := bodyIR, effects := effects, capabilities := caps,
     origin := mk_origin "👤" "🛠" nid ("fn_" ++ name) "AST" }, ids)

/-- One statement of a section body inside `lower_program`'s loop. -/
def lower_sec_step (acc : List IRStmt × List IRFunction × List String × Nat)
    (st : Stmt) : List IRStmt × List IRFunction × List String × Nat :=
  let (top, fns, caps, ids) := acc
  let (irs, ids) := lower_stmt st ids
  (top ++ [irs], fns, caps ++ irs.capabilities, ids)

/-- One top-level item of `lower_program`'s loop. -/
def lower_item_step (acc : List IRStmt × List IRFunction × List String × Nat)
    (item : TopItem) : List IRStmt × List IRFunction × List String × Nat :=
  match item with
  | .sec _ _ _ body => (body.getD []).foldl lower_sec_step acc
  | .stmt (.funcDef name params rt body) =>
    let (top, fns, caps, ids) := acc
    let (f, ids) := lower_function name params rt body ids
    (top, fns ++ [f], caps ++ f.capabilities, ids)
  | .stmt s => lower_sec_step acc s

/-- `lower_program`. -/
def lower_program (p : Program) (moduleName semver : String) : IR :=
  let (top, fns, caps, _) := p.items.foldl lower_item_step ([], [], [], 0)
  { irVersion := "0.1.0",
    origin := mk_origin "🤖" "🧬" "IR0" "module" "Lowering",
    module := { name := moduleName, semver := semver, functions := fns,
                toplevel := top, capabilities := sortDedup caps } }

/-! ## Capability policy (`capabilities.py`) -/

/-- Set difference on sorted duplicate-free lists. -/
def diffSorted (a b : List String) : List String := a.filter (fun x => !(b.contains x))

/-- Set union into a sorted duplicate-free list. -/
def unionSorted (a b : List String) : List String :=
  b.foldl (fun acc x => insertSorted x acc) a

def CANON_CAPS : List String :=
  sortDedup ["compute", "io.read", "io.write", "fs.read", "fs.write", "net", "env", "crypto"]

structure CapPolicy where
  allowedWithoutApproval : List String
  allowedWithApproval : List String
  denied : List String
deriving DecidableEq, Repr

/-- The `POLICY` dict; `none` models `supervision_level not in POLICY`. -/
def POLICY : Nat → Option CapPolicy
  | 1 => some ⟨["compute"], [], diffSorted CANON_CAPS ["compute"]⟩
  | 2 => some ⟨sortDedup ["compute", "io.write"], ["io.read"],
          diffSorted CANON_CAPS (sortDedup ["compute", "io.write", "io.read"])⟩
  | 3 => some ⟨sortDedup ["compute", "io.read", "io.write"],
          sortDedup ["fs.read", "fs.write", "net"],
          diffSorted CANON_CAPS
            (sortDedup ["compute", "io.read", "io.write", "fs.read", "fs.write", "net"])⟩
  | 4 => some ⟨sortDedup ["compute", "io.read", "io.write", "fs.read"],
          sortDedup ["fs.write", "net", "env", "crypto"], []⟩
  | _ => Option.none

def EFFECT_TO_CAP : String → Option String
  | "io.show" => some "io.write"
  | "io.ask" => some "io.read"
  | "contract.verify" => some "compute"
  | "control.return" => some "compute"
  | "fs.read" => some "fs.read"
  | "fs.write" => some "fs.write"
  | "net.request" => some "net"
  | "env.read" => some "env"
  | "crypto.use" => some "crypto"
  | _ => Option.none

def caps_required_for_effects (effects : List String) : List String :=
  effects.foldl
    (fun req ef =>
      match EFFECT_TO_CAP ef with
      | some cap => insertSorted cap req
      | Option.none => req)
    ["compute"]

/-- `normalize_caps`: de-duplicate preserving first occurrence. -/
def normalize_caps (caps : List String) : List String :=
  caps.foldl (fun out c => if out.contains c then out else out ++ [c]) []

/-! ## Capability enforcement (`enforce.py`) -/

structure CapDiagnostic where
  idref : String
  code : String
  severity : String
  messageHuman : String
  remediation : String
  originRef : Option String
deriving DecidableEq, Repr

/-- `enforce_capabilities` has two failure modes: `ValueError` for a level
outside `POLICY`'s keys, and the fatal structured `CapabilityError`. -/
inductive EnforceErr where
  | valueError (msg : String)
  | capError (d : CapDiagnostic)
deriving DecidableEq, Repr

/-- Python `repr` of a list of strings (as interpolated into f-strings). -/
def pyStrListRepr (l : List String) : String :=
  "[" ++ String.intercalate ", " (l.map (fun s => "\x27" ++ s ++ "\x27")) ++ "]"

/-- The `fail(...)` helper: the first (and, since enforcement is fatal, only)
failure draws idref `"6🐛1"` from the `_ErrIds` counter. -/
def capFail (code msg remediation : String) (origin : Option String) : CapDiagnostic :=
  ⟨"6🐛1", code, "fatal", msg, remediation, origin⟩

mutual

/-- `_collect_required_caps_from_expr` on a present expression dict. -/
def collect_caps_expr : IRExpr → List String
  | .call callee args _ =>
    let req := if callee == "ask" then insertSorted "io.read" ["compute"] else ["compute"]
    unionSorted req (collect_caps_args args)
  | .unary _ inner _ => unionSorted ["compute"] (collect_caps_expr inner)
  | .binary _ l r _ =>
    unionSorted (unionSorted ["compute"] (collect_caps_expr l)) (collect_caps_expr r)
  | _ => ["compute"]
termination_by structural e => e

def collect_caps_args : List IRExpr → List String
  | [] => []
  | a :: rest => unionSorted (collect_caps_expr a) (collect_caps_args rest)
termination_by structural args => args

end

/-- `_collect_required_caps_from_expr` (`None`/absent dict keys give
`{"compute"}`). -/
def collect_required_caps_from_expr : Option IRExpr → List String
  | Option.none => ["compute"]
  | some e => collect_caps_expr e

mutual

/-- `_collect_required_caps_from_stmt`. -/
def collect_required_caps_from_stmt (s : IRStmt) : List String :=
  let req := unionSorted ["compute"] (caps_required_for_effects s.effects)
  let req := unionSorted req (collect_required_caps_from_expr s.valueField)
  let req := unionSorted req (collect_required_caps_from_expr s.condField)
  match s with
  | .ifStmt _ t e _ _ _ => unionSorted (unionSorted req (collect_caps_stmts t)) (collect_caps_stmts e)
  | .whileStmt _ b _ _ _ => unionSorted req (collect_caps_stmts b)
  | _ => req
termination_by structural s

def collect_caps_stmts : List IRStmt → List String
  | [] => []
  | s :: rest => unionSorted (collect_required_caps_from_stmt s) (collect_caps_stmts rest)
termination_by structural ss => ss

end

def required_caps_for_function (fn : IRFunction) : List String :=
  unionSorted (unionSorted ["compute"] (collect_caps_stmts fn.body))
    (caps_required_for_effects fn.effects)

def required_caps_for_module (ir : IR) : List String :=
  ir.module.functions.foldl
    (fun req fn => unionSorted req (required_caps_for_function fn))
    (unionSorted ["compute"] (collect_caps_stmts ir.module.toplevel))

/-- The `for c in list(declared): if c not in CANON_CAPS: fail(...)` loop
(HND-CAP-0001).  The set is iterated in sorted order in the model; which of
several unknown capabilities is reported first is the only thing this can
change, and no claim observes it. -/
def check_unknown_caps (declared : List String) (origin : Option String) :
    Except CapDiagnostic Unit :=
  match declared.find? (fun c => !(CANON_CAPS.contains c)) with
  | some c =>
    .error (capFail "HND-CAP-0001"
      ("Unknown capability \x27" ++ c ++ "\x27 (no synonyms allowed).")
      ("Replace \x27" ++ c ++ "\x27 with a canonical capability: "
        ++ pyStrListRepr CANON_CAPS ++ ".")
      origin)
  | Option.none => .ok ()

/-- `check_cap`: denial beats approval-needed; both raise fatally. -/
def check_cap (pol : CapPolicy) (approvals : List String) (supervisionLevel : Nat)
    (cap : String) (origin : Option String) : Except CapDiagnostic Unit :=
  if pol.denied.contains cap then
    .error (capFail "HND-CAP-0101"
      ("Capability \x27" ++ cap ++
        s!"\x27 is denied at supervision level {supervisionLevel}.")
      "Increase supervision level or remove the operation requiring this capability."
      origin)
  else if pol.allowedWithApproval.contains cap && !(approvals.contains cap) then
    .error (capFail "HND-CAP-0102"
      ("Capability \x27" ++ cap ++
        s!"\x27 requires explicit human approval (🔴) at supervision level {supervisionLevel}.")
      ("Provide approval for \x27" ++ cap ++ "\x27, or refactor to avoid requiring it.")
      origin)
  else .ok ()

/-- `for cap in sorted(required): check_cap(cap, origin)`. -/
def check_caps_list (pol : CapPolicy) (approvals : List String) (supervisionLevel : Nat)
    (caps : List String) (origin : Option String) : Except CapDiagnostic Unit :=
  match caps with
  | [] => .ok ()
  | c :: rest =>
    match check_cap pol approvals supervisionLevel c origin with
    | .error d => .error d
    | .ok () => check_caps_list pol approvals supervisionLevel rest origin

/-- `set(normalize_caps(fn.get("capabilities"))); add("compute")`. -/
def declared_function_caps (fn : IRFunction) : List String :=
  insertSorted "compute" (sortDedup (normalize_caps fn.capabilities))

def missing_function_caps (fn : IRFunction) : List String :=
  diffSorted (required_caps_for_function fn) (declared_function_caps fn)

/-- The per-function enforcement pass of `scope == "function"`. -/
def enforce_function (pol : CapPolicy) (approvals : List String) (supervisionLevel : Nat)
    (fn : IRFunction) : Except CapDiagnostic Unit :=
  match check_unknown_caps (declared_function_caps fn) (some fn.origin.ref) with
  | .error d => .error d
  | .ok () =>
    if missing_function_caps fn != [] then
      .error (capFail "HND-CAP-0202"
        ("Function \x27" ++ fn.name ++ "\x27 is missing declared capabilities "
          ++ pyStrListRepr (missing_function_caps fn) ++ ".")
        "Add missing caps to function.capabilities or remove the operations requiring them."
        (some fn.origin.ref))
    else check_caps_list pol approvals supervisionLevel (required_caps_for_function fn)
      (some fn.origin.ref)

def enforce_functions (pol : CapPolicy) (approvals : List String) (supervisionLevel : Nat) :
    List IRFunction → Except CapDiagnostic Unit
  | [] => .ok ()
  | fn :: rest =>
    match enforce_function pol approvals supervisionLevel fn with
    | .error d => .error d
    | .ok () => enforce_functions pol approvals supervisionLevel rest

/-- `enforce_capabilities(ir, supervision_level, approvals, scope)`.

The module dict produced by lowering carries no `origin` key, so the
`_origin_ref(mod) or _origin_ref(ir)` fallback always resolves to the IR's
own origin ref. -/
def declared_module_caps (ir : IR) : List String :=
  insertSorted "compute" (sortDedup (normalize_caps ir.module.capabilities))

def missing_module_caps (ir : IR) : List String :=
  diffSorted (required_caps_for_module ir) (declared_module_caps ir)

def enforce_capabilities (ir : IR) (supervisionLevel : Nat) (approvals : List String)
    (scope : String) : Except EnforceErr (IR × List CapDiagnostic) :=
  match POLICY supervisionLevel with
  | Option.none => .error (.valueError "supervision_level must be 1..4")
  | some pol =>
    match check_unknown_caps (declared_module_caps ir) (some ir.origin.ref) with
    | .error d => .error (.capError d)
    | .ok () =>
      if missing_module_caps ir != [] then
        .error (.capError (capFail "HND-CAP-0201"
          ("Missing declared capabilities " ++ pyStrListRepr (missing_module_caps ir) ++
            ". Program requires them but module.capabilities does not permit them.")
          "Add the missing capabilities to module.capabilities (or remove the operations requiring them)."
          (some ir.origin.ref)))
      else
        match check_caps_list pol (sortDedup approvals) supervisionLevel
            (required_caps_for_module ir) (some ir.origin.ref) with
        | .error d => .error (.capError d)
        | .ok () =>
          if scope == "function" then
            match enforce_functions pol (sortDedup approvals) supervisionLevel
                ir.module.functions with
            | .error d => .error (.capError d)
            | .ok () => .ok (ir, ([] : List CapDiagnostic))
          else .ok (ir, ([] : List CapDiagnostic))

/-! ## Host-language (Python) backend (`src/handc/python_gen.py`)

`gen_python` raises `ValueError` (modelled as `Except.error`) when the IR
falls outside what the emitter handles; otherwise it returns Python source
text.  The fixed runtime prelude/epilogue strings around the per-statement
emission cannot fail and are not needed by any claim, so the model covers
`emit_expr`, `emit_stmt`, and the emission loops over functions/toplevel. -/

namespace PyGen

/-- The `opmap` dict in `emit_expr`'s `binary` branch.  Note: `%` is absent. -/
def opmap (op : String) : Option String :=
  if op == "==" || op == "!=" || op == "<" || op == ">" || op == "<=" || op == ">="
      || op == "+" || op == "-" || op == "*" || op == "/" then
    some op
  else Option.none

/-- `_decode_text_literal`: the source calls `ast.literal_eval` on the
quoted Text token, falling back to stripping outer quotes.  The model decodes
the standard escapes, which is `literal_eval`'s behaviour on the tokens the
lexer/lowering produce; no settled claim evaluates this function. -/
def decodeTextBody : List Char → List Char
  | [] => []
  | '\\' :: c :: rest =>
    (if c == 'n' then ['\n']
     else if c == 't' then ['\t']
     else if c == 'r' then ['\r']
     else if c == '\\' then ['\\']
     else if c == '"' then ['"']
     else ['\\', c]) ++ decodeTextBody rest
  | c :: rest => c :: decodeTextBody rest

def decode_text_literal (s : String) : String :=
  let cs := s.data
  if cs.length ≥ 2 && cs.head? == some '"' && cs.getLast? == some '"' then
    String.mk (decodeTextBody (cs.drop 1).dropLast)
  else s

/-- Python truthiness (`bool(x)`), used by `_decode_bool_literal`'s fallback. -/
def pyTruthy : Value → Bool
  | .null => false
  | .bool b => b
  | .int n => n != 0
  | .float q => q != 0
  | .str s => s != ""

def decode_bool_literal : Value → Bool
  | .bool b => b
  | .str t =>
    let tl := t.trim.toLower
    if tl == "true" then true
    else if tl == "false" then false
    else pyTruthy (.str t)
  | v => pyTruthy v

/-- Python `repr` of a string in the common single-quote form (escaping
backslashes, single quotes and the control characters the toolchain can
produce).  Quote-choice subtleties of CPython's `repr` beyond this do not
affect whether generation succeeds, which is all the claims observe. -/
def pyReprStrBody : List Char → List Char
  | [] => []
  | c :: rest =>
    (if c == '\\' then ['\\', '\\']
     else if c == '\x27' then ['\\', '\x27']
     else if c == '\n' then ['\\', 'n']
     else if c == '\t' then ['\\', 't']
     else if c == '\r' then ['\\', 'r']
     else [c]) ++ pyReprStrBody rest

def pyReprStr (s : String) : String :=
  "\x27" ++ String.mk (pyReprStrBody s.data) ++ "\x27"

/-- Python `repr(v)` for the literal values the IR can carry. -/
def pyReprValue : Value → String
  | .int n => toString n
  | .float q => toString q   -- abstracted; never evaluated by the theorems
  | .bool b => if b then "True" else "False"
  | .str s => pyReprStr s
  | .null => "None"

mutual

/-- `emit_expr` (python_gen.py lines 107–147). -/
def emit_expr : IRExpr → Except String String
  | .lit v t? _ =>
    let ty : Option String := t?.map (·.kind)
    if ty == some "Text" && (match v with | .str _ => true | _ => false) then
      match v with
      | .str s => .ok (pyReprStr (decode_text_literal s))
      | _ => .ok (pyReprValue v)  -- unreachable under the guard
    else if ty == some "Bool" then
      .ok (if decode_bool_literal v then "True" else "False")
    else if ty == some "Null" || v == .null
        || (match v with | .str s => s.toLower == "null" | _ => false) then
      .ok "None"
    else .ok (pyReprValue v)
  | .var name _ => .ok ("store.get(" ++ pyReprStr name ++ ")")
  | .unary op e _ => do
    let inner ← emit_expr e
    if op == "-" then .ok ("(-(" ++ inner ++ "))")
    else if op == "not" then .ok ("(not _truthy(" ++ inner ++ "))")
    else .error ("Unsupported unary op: " ++ op)
  | .binary op l r _ => do
    let ls ← emit_expr l
    let rs ← emit_expr r
    match opmap op with
    | some pyop => .ok ("(" ++ ls ++ " " ++ pyop ++ " " ++ rs ++ ")")
    | Option.none => .error ("Unsupported binary op: " ++ op)
  | .call callee args _ => do
    let argStrs ← emit_expr_list args
    if callee == "ask" then
      .ok ("rt.ask(" ++ argStrs.headD (pyReprStr "") ++ ")")
    else if callee == "show" then
      .ok ("(rt.show(" ++ argStrs.headD "None" ++ "), None)[1]")
    else
      .ok (callee ++ "(store, rt" ++ (if argStrs != [] then ", " else "")
        ++ String.intercalate ", " argStrs ++ ")")
termination_by structural e => e

def emit_expr_list : List IRExpr → Except String (List String)
  | [] => .ok []
  | e :: rest => do
    let s ← emit_expr e
    let ss ← emit_expr_list rest
    .ok (s :: ss)
termination_by structural es => es

end

def pad (indent : Nat) : String := String.mk (List.replicate indent ' ')

/-- The `OC` helper: append the statement's origin ref as a trailing comment. -/
def withOriginComment (ref line : String) : String :=
  line ++ (if ref != "" then "  # " ++ ref else "")

mutual

/-- `emit_stmt` (python_gen.py lines 149–199). -/
def emit_stmt (stmt : IRStmt) (indent : Nat) : Except String (List String) :=
  let ref := stmt.origin.ref
  let OC := withOriginComment ref
  match stmt with
  | .assign name _ value _ _ _ => do
    let vs ← emit_expr value
    .ok [OC (pad indent ++ "store.set(" ++ pyReprStr name ++ ", " ++ vs ++ ")")]
  | .exprStmt value _ _ _ => do
    let vs ← emit_expr value
    .ok [OC (pad indent ++ vs)]
  | .showStmt value _ _ _ => do
    let vs ← emit_expr value
    .ok [OC (pad indent ++ "rt.show(" ++ vs ++ ")")]
  | .verifyStmt value _ _ _ => do
    let vs ← emit_expr value
    .ok [OC (pad indent ++ "if not _truthy(" ++ vs ++ "):"),
         OC (pad indent ++ "    raise RuntimeError(\x27HND-VERIFY-0001 VERIFY failed\x27)")]
  | .returnStmt value _ _ _ =>
    match value with
    | Option.none => .ok [OC (pad indent ++ "raise _ReturnSignal(None)")]
    | some v => do
      let vs ← emit_expr v
      .ok [OC (pad indent ++ "raise _ReturnSignal(" ++ vs ++ ")")]
  | .ifStmt cond thenB elseB _ _ _ => do
    let cs ← emit_expr cond
    let thenLines ←
      if thenB.isEmpty then pure [OC (pad indent ++ "    pass")]
      else emit_stmt_list thenB (indent + 4)
    let elseLines ←
      if elseB.isEmpty then pure []
      else do
        let els ← emit_stmt_list elseB (indent + 4)
        pure (OC (pad indent ++ "else:") :: els)
    .ok ([OC (pad indent ++ "if _truthy(" ++ cs ++ "):")] ++ thenLines ++ elseLines)
  | .whileStmt cond body _ _ _ => do
    let cs ← emit_expr cond
    let bodyLines ←
      if body.isEmpty then pure [OC (pad indent ++ "    break")]
      else emit_stmt_list body (indent + 4)
    .ok ([OC (pad indent ++ "while _truthy(" ++ cs ++ "):")] ++ bodyLines)
termination_by structural stmt

def emit_stmt_list : List IRStmt → Nat → Except String (List String)
  | [], _ => .ok []
  | s :: rest, indent => do
    let ls ← emit_stmt s indent
    let rs ← emit_stmt_list rest indent
    .ok (ls ++ rs)
termination_by structural ss _ => ss

end

/-- The statement-emission loop of `gen_python` over `module.toplevel`
(each top-level statement is emitted at indent 4 inside `__hand_main`).
The surrounding fixed prelude/epilogue strings cannot fail, so generation
succeeds iff this loop does. -/
def gen_python_toplevel (ir : IR) : Except String (List String) :=
  if ir.irVersion != "0.1.0" then .error "Unsupported IR version"
  else emit_stmt_list ir.module.toplevel 4

end PyGen

/-! ## Concrete pipeline inputs used by the claims -/

/-- The one-statement program `show 7 % 3`. -/
def pMod : Program :=
  ⟨[.stmt (.showStmt (.binary (.literal "Int" (.int 7)) "%" (.literal "Int" (.int 3))))]⟩

/-- The one-statement program `x: Text = ask("p")` (scenario S3); the lexer
hands the parser the quoted prompt token. -/
def pAsk : Program :=
  ⟨[.stmt (.assign "x" (some (.name "Text")) (.call "ask" [.literal "Text" (.str "\"p\"")]))]⟩

/-- S3's IR: the lowering of `pAsk` with the declared module capabilities
`[compute, io.read]`. -/
def irAsk : IR :=
  let ir := lower_program pAsk "main" "0.1.0"
  { ir with module := { ir.module with capabilities := ["compute", "io.read"] } }

/-- The one-statement program `show 1`. -/
def pShow1 : Program := ⟨[.stmt (.showStmt (.literal "Int" (.int 1)))]⟩

/-! ## Claim C1: host-backend equivalence and the `%` operator -/

/-- **C1 (code bug).**  The spec promises interpreter/generated-program
equivalence on the host backend's subset, in particular for programs using
the IR's operators including `%`.  The interpreter supports `%`
(`_eval_bin`), the lexer/parser/typechecker/lowering all pass `%` through,
and `python_gen.py`'s `opmap` maps every other binary operator of the IR —
but omits `"%"`, so `emit_expr` raises `ValueError("Unsupported binary op: %")`
and no program is generated at all.  At the failing input `show 7 % 3` the
interpreter yields Ω = `["1"]` while generation fails. -/
theorem c1_host_backend_percent :
    (runInterp 32 pMod []).1 = RunRes.ok ["1"] [] ∧
    eval_bin (.int 7) "%" (.int 3) = .ok (.int 1) ∧
    PyGen.gen_python_toplevel (lower_program pMod "main" "0.1.0")
      = .error "Unsupported binary op: %" ∧
    PyGen.opmap "%" = Option.none ∧
    (PyGen.opmap "+").isSome = true ∧ (PyGen.opmap "-").isSome = true ∧
    (PyGen.opmap "*").isSome = true ∧ (PyGen.opmap "/").isSome = true ∧
    (PyGen.opmap "==").isSome = true ∧ (PyGen.opmap "!=").isSome = true ∧
    (PyGen.opmap "<").isSome = true ∧ (PyGen.opmap "<=").isSome = true ∧
    (PyGen.opmap ">").isSome = true ∧ (PyGen.opmap ">=").isSome = true := by
  refine ⟨?_, ?_, ?_, ?_, ?_, ?_, ?_, ?_, ?_, ?_, ?_, ?_, ?_, ?_⟩ <;> rfl

/-! ## Claim C2: `ask` at level 2 without approval -/

/-- **C2.**  For `x: Text = ask("p")` lowered to IR and enforced at
supervision level 2 with declared module capabilities `[compute, io.read]`
and an empty approvals set, enforcement fails with `HND-CAP-0102`: the `ask`
call (anywhere in the program) puts `io.read` into the required set, and at
level 2 `io.read` is allowed only with approval. -/
theorem c2_ask_level2_without_approval :
    required_caps_for_module irAsk = ["compute", "io.read"] ∧
    (POLICY 2).map (·.allowedWithApproval) = some ["io.read"] ∧
    enforce_capabilities irAsk 2 [] "module" = .error (.capError
      ⟨"6🐛1", "HND-CAP-0102", "fatal",
       "Capability \x27io.read\x27 requires explicit human approval (🔴) at supervision level 2.",
       "Provide approval for \x27io.read\x27, or refactor to avoid requiring it.",
       some "[Lowering][🧬][IR0].module"⟩) := by
  refine ⟨by decide, by decide, by rfl⟩

/-! ## Claim C9: enforcement is pure and fails only fatally -/

theorem check_unknown_caps_error (declared : List String) (origin : Option String)
    (d : CapDiagnostic) (h : check_unknown_caps declared origin = .error d) :
    d.severity = "fatal" ∧ d.code = "HND-CAP-0001" := by
  rw [check_unknown_caps] at h
  rcases hf : declared.find? (fun c => !(CANON_CAPS.contains c)) with _ | c
  · rw [hf] at h; cases h
  · rw [hf] at h
    injection h with h2
    subst h2
    exact ⟨rfl, rfl⟩

theorem check_cap_error (pol : CapPolicy) (approvals : List String) (lvl : Nat)
    (cap : String) (origin : Option String) (d : CapDiagnostic)
    (h : check_cap pol approvals lvl cap origin = .error d) :
    d.severity = "fatal" ∧ (d.code = "HND-CAP-0101" ∨ d.code = "HND-CAP-0102") := by
  rw [check_cap] at h
  split at h
  · injection h with h2
    subst h2
    exact ⟨rfl, .inl rfl⟩
  · split at h
    · injection h with h2
      subst h2
      exact ⟨rfl, .inr rfl⟩
    · cases h

theorem check_caps_list_error (pol : CapPolicy) (approvals : List String) (lvl : Nat)
    (caps : List String) (origin : Option String) (d : CapDiagnostic)
    (h : check_caps_list pol approvals lvl caps origin = .error d) :
    d.severity = "fatal" ∧ (d.code = "HND-CAP-0101" ∨ d.code = "HND-CAP-0102") := by
  induction caps with
  | nil => rw [check_caps_list] at h; cases h
  | cons c rest ih =>
    rw [check_caps_list] at h
    rcases hc : check_cap pol approvals lvl c origin with d' | ⟨⟩
    · rw [hc] at h
      injection h with h2
      subst h2
      exact check_cap_error pol approvals lvl c origin _ hc
    · rw [hc] at h; exact ih h

theorem enforce_function_error (pol : CapPolicy) (approvals : List String) (lvl : Nat)
    (fn : IRFunction) (d : CapDiagnostic)
    (h : enforce_function pol approvals lvl fn = .error d) :
    d.severity = "fatal" ∧
    (d.code = "HND-CAP-0001" ∨ d.code = "HND-CAP-0101" ∨ d.code = "HND-CAP-0102" ∨
     d.code = "HND-CAP-0202") := by
  rw [enforce_function] at h
  rcases hu : check_unknown_caps (declared_function_caps fn) (some fn.origin.ref) with d' | ⟨⟩
  · rw [hu] at h
    injection h with h2
    subst h2
    have := check_unknown_caps_error _ _ _ hu
    exact ⟨this.1, .inl this.2⟩
  · rw [hu] at h
    dsimp only at h
    split at h
    · injection h with h2
      subst h2
      exact ⟨rfl, .inr (.inr (.inr rfl))⟩
    · have := check_caps_list_error pol approvals lvl _ (some fn.origin.ref) d h
      exact ⟨this.1, this.2.elim (fun h' => .inr (.inl h')) (fun h' => .inr (.inr (.inl h')))⟩

theorem enforce_functions_error (pol : CapPolicy) (approvals : List String) (lvl : Nat)
    (fns : List IRFunction) (d : CapDiagnostic)
    (h : enforce_functions pol approvals lvl fns = .error d) :
    d.severity = "fatal" ∧
    (d.code = "HND-CAP-0001" ∨ d.code = "HND-CAP-0101" ∨ d.code = "HND-CAP-0102" ∨
     d.code = "HND-CAP-0202") := by
  induction fns with
  | nil => rw [enforce_functions] at h; cases h
  | cons fn rest ih =>
    rw [enforce_functions] at h
    rcases hf : enforce_function pol approvals lvl fn with d' | ⟨⟩
    · rw [hf] at h
      injection h with h2
      subst h2
      exact enforce_function_error pol approvals lvl fn _ hf
    · rw [hf] at h; exact ih h

/-- **C9.**  `enforce_capabilities` never mutates its input: whenever it
returns normally it returns the very same IR together with an empty
diagnostics list (the `diags` list in the source is created empty and never
appended to), and every capability violation is instead reported by raising
a structured `CapabilityError` whose diagnostic has severity `fatal` and one
of the stable `HND-CAP-*` codes, and which carries message, remediation and
origin-reference fields. -/
theorem c9_enforce_capabilities_pure (ir : IR) (level : Nat) (approvals : List String)
    (scope : String) :
    (∀ ir' ds, enforce_capabilities ir level approvals scope = .ok (ir', ds) →
      ir' = ir ∧ ds = []) ∧
    (∀ d, enforce_capabilities ir level approvals scope = .error (.capError d) →
      d.severity = "fatal" ∧
      (d.code = "HND-CAP-0001" ∨ d.code = "HND-CAP-0101" ∨ d.code = "HND-CAP-0102" ∨
       d.code = "HND-CAP-0201" ∨ d.code = "HND-CAP-0202")) := by
  constructor
  · intro ir' ds h
    rw [enforce_capabilities] at h
    rcases hp : POLICY level with _ | pol <;> rw [hp] at h <;> dsimp only at h
    · cases h
    · rcases hu : check_unknown_caps (declared_module_caps ir) (some ir.origin.ref)
          with d' | ⟨⟩ <;> rw [hu] at h <;> dsimp only at h
      · cases h
      · split at h
        · cases h
        · rcases hc : check_caps_list pol (sortDedup approvals) level
              (required_caps_for_module ir) (some ir.origin.ref) with d' | ⟨⟩ <;> rw [hc] at h <;> dsimp only at h
          · cases h
          · split at h
            · rcases hfs : enforce_functions pol (sortDedup approvals) level
                  ir.module.functions with d' | ⟨⟩ <;> rw [hfs] at h <;> dsimp only at h
              · cases h
              · injection h with h2
                injection h2 with h3 h4
                exact ⟨h3.symm, h4.symm⟩
            · injection h with h2
              injection h2 with h3 h4
              exact ⟨h3.symm, h4.symm⟩
  · intro d h
    rw [enforce_capabilities] at h
    rcases hp : POLICY level with _ | pol <;> rw [hp] at h <;> dsimp only at h
    · injection h with h2; cases h2
    · rcases hu : check_unknown_caps (declared_module_caps ir) (some ir.origin.ref)
          with d' | ⟨⟩ <;> rw [hu] at h <;> dsimp only at h
      · injection h with h2
        injection h2 with h3
        subst h3
        have := check_unknown_caps_error _ _ _ hu
        exact ⟨this.1, .inl this.2⟩
      · split at h
        · injection h with h2
          injection h2 with h3
          subst h3
          exact ⟨rfl, .inr (.inr (.inr (.inl rfl)))⟩
        · rcases hc : check_caps_list pol (sortDedup approvals) level
              (required_caps_for_module ir) (some ir.origin.ref) with d' | ⟨⟩ <;> rw [hc] at h <;> dsimp only at h
          · injection h with h2
            injection h2 with h3
            subst h3
            have := check_caps_list_error _ _ _ _ _ _ hc
            exact ⟨this.1,
              this.2.elim (fun h' => .inr (.inl h')) (fun h' => .inr (.inr (.inl h')))⟩
          · split at h
            · rcases hfs : enforce_functions pol (sortDedup approvals) level
                  ir.module.functions with d' | ⟨⟩ <;> rw [hfs] at h <;> dsimp only at h
              · injection h with h2
                injection h2 with h3
                subst h3
                have := enforce_functions_error _ _ _ _ _ hfs
                refine ⟨this.1, ?_⟩
                rcases this.2 with h' | h' | h' | h'
                · exact .inl h'
                · exact .inr (.inl h')
                · exact .inr (.inr (.inl h'))
                · exact .inr (.inr (.inr (.inr h')))
              · cases h
            · cases h

/-- Witness for C9: the ok branch at S3's IR with `io.read` approved (the IR
comes back unchanged with no diagnostics), and the error branch at S3's IR
with no approvals (the fatal `HND-CAP-0102` diagnostic). -/
theorem c9_enforce_capabilities_pure_witness :
    (irAsk = irAsk ∧ ([] : List CapDiagnostic) = []) ∧
    ("fatal" : String) = "fatal" ∧
    (("HND-CAP-0102" : String) = "HND-CAP-0001" ∨ ("HND-CAP-0102" : String) = "HND-CAP-0101" ∨
     ("HND-CAP-0102" : String) = "HND-CAP-0102" ∨ ("HND-CAP-0102" : String) = "HND-CAP-0201" ∨
     ("HND-CAP-0102" : String) = "HND-CAP-0202") :=
  ⟨(c9_enforce_capabilities_pure irAsk 2 ["io.read"] "module").1 irAsk [] rfl,
   (c9_enforce_capabilities_pure irAsk 2 [] "module").2
     ⟨"6🐛1", "HND-CAP-0102", "fatal",
      "Capability \x27io.read\x27 requires explicit human approval (🔴) at supervision level 2.",
      "Provide approval for \x27io.read\x27, or refactor to avoid requiring it.",
      some "[Lowering][🧬][IR0].module"⟩ rfl⟩

/-! ## Claim C5: origins on IR nodes -/

/-- The `[Stage][Emoji][NodeId].[SubId]` shape of `_mk_origin`'s `ref`. -/
def refWellFormed (r : String) : Prop :=
  ∃ stage emoji nid sub : String,
    r = "[" ++ stage ++ "][" ++ emoji ++ "][" ++ nid ++ "]." ++ sub

theorem mk_origin_wf (actor emoji nid sub stage : String) :
    refWellFormed (mk_origin actor emoji nid sub stage).ref ∧
    (mk_origin actor emoji nid sub stage).actor = actor :=
  ⟨⟨stage, emoji, nid, sub, rfl⟩, rfl⟩

mutual

/-- All origin objects carried by an IR statement (its own plus those of
nested statements; expression nodes carry none — that is what claim C5's
counterexample exhibits). -/
def stmtOrigins : IRStmt → List IROrigin
  | .ifStmt _ t e o _ _ => o :: (stmtOriginsList t ++ stmtOriginsList e)
  | .whileStmt _ b o _ _ => o :: stmtOriginsList b
  | s => [s.origin]
termination_by structural s => s

def stmtOriginsList : List IRStmt → List IROrigin
  | [] => []
  | s :: rest => stmtOrigins s ++ stmtOriginsList rest
termination_by structural ss => ss

end

/-- Every origin object in a lowered IR: the module's, each function's, each
parameter's, and each statement's (top-level and function bodies). -/
def irOrigins (ir : IR) : List IROrigin :=
  ir.origin :: (stmtOriginsList ir.module.toplevel ++
    (ir.module.functions.map
      (fun f => f.origin :: (f.params.map (·.origin) ++ stmtOriginsList f.body))).flatten)

/-- A well-formed origin: `ref` has the `[Stage][Emoji][NodeId].[SubId]`
shape and the actor is one of the two actors the lowering ever writes
(`👤` for user-authored nodes, `🤖` for the synthesized module origin) —
a subset of the spec's `{👤, ⭐, 🤖}`. -/
def originWellFormed (o : IROrigin) : Prop :=
  refWellFormed o.ref ∧ (o.actor = "👤" ∨ o.actor = "🤖")

theorem mk_origin_user_wf (emoji nid sub stage : String) :
    originWellFormed (mk_origin "👤" emoji nid sub stage) :=
  ⟨⟨stage, emoji, nid, sub, rfl⟩, .inl rfl⟩

mutual

theorem lower_stmt_origins_wf (s : Stmt) (ids : Nat) :
    ∀ o ∈ stmtOrigins (lower_stmt s ids).1, originWellFormed o := by
  match s with
  | .assign name dt value =>
    intro o ho
    simp only [lower_stmt, idNext, stmtOrigins, IRStmt.origin, List.mem_singleton] at ho
    subst ho
    exact mk_origin_user_wf _ _ _ _
  | .exprStmt e =>
    intro o ho
    simp only [lower_stmt, idNext, stmtOrigins, IRStmt.origin, List.mem_singleton] at ho
    subst ho
    exact mk_origin_user_wf _ _ _ _
  | .showStmt v =>
    intro o ho
    simp only [lower_stmt, idNext, stmtOrigins, IRStmt.origin, List.mem_singleton] at ho
    subst ho
    exact mk_origin_user_wf _ _ _ _
  | .verifyStmt e =>
    intro o ho
    simp only [lower_stmt, idNext, stmtOrigins, IRStmt.origin, List.mem_singleton] at ho
    subst ho
    exact mk_origin_user_wf _ _ _ _
  | .returnStmt v =>
    intro o ho
    simp only [lower_stmt, idNext, stmtOrigins, IRStmt.origin, List.mem_singleton] at ho
    subst ho
    exact mk_origin_user_wf _ _ _ _
  | .funcDef a b c d =>
    intro o ho
    simp only [lower_stmt, idNext, stmtOrigins, IRStmt.origin, List.mem_singleton] at ho
    subst ho
    exact mk_origin_user_wf _ _ _ _
  | .whileStmt cond body =>
    intro o ho
    rcases hB : lower_stmts body (ids + 1) with ⟨bodyIR, ids1⟩
    simp only [lower_stmt, idNext, hB, stmtOrigins, List.mem_cons] at ho
    rcases ho with rfl | ho
    · exact mk_origin_user_wf _ _ _ _
    · have := lower_stmts_origins_wf body (ids + 1)
      rw [hB] at this
      exact this o ho
  | .ifStmt cond thenB elseB =>
    intro o ho
    rcases hT : lower_stmts thenB (ids + 1) with ⟨thenIR, ids1⟩
    match elseB with
    | Option.none =>
      simp only [lower_stmt, idNext, hT, stmtOrigins, stmtOriginsList, List.append_nil,
        List.mem_cons] at ho
      rcases ho with rfl | ho
      · exact mk_origin_user_wf _ _ _ _
      · have := lower_stmts_origins_wf thenB (ids + 1)
        rw [hT] at this
        exact this o ho
    | some es =>
      rcases hE : lower_stmts es ids1 with ⟨elseIR, ids2⟩
      simp only [lower_stmt, idNext, hT, hE, stmtOrigins, List.mem_cons,
        List.mem_append] at ho
      rcases ho with rfl | ho | ho
      · exact mk_origin_user_wf _ _ _ _
      · have := lower_stmts_origins_wf thenB (ids + 1)
        rw [hT] at this
        exact this o ho
      · have := lower_stmts_origins_wf es ids1
        rw [hE] at this
        exact this o ho
termination_by structural s

theorem lower_stmts_origins_wf (ss : List Stmt) (ids : Nat) :
    ∀ o ∈ stmtOriginsList (lower_stmts ss ids).1, originWellFormed o := by
  match ss with
  | [] =>
    intro o ho
    simp [lower_stmts, stmtOriginsList] at ho
  | s :: rest =>
    intro o ho
    rcases h1 : lower_stmt s ids with ⟨sIR, ids1⟩
    rcases h2 : lower_stmts rest ids1 with ⟨restIR, ids2⟩
    simp only [lower_stmts, h1, h2, stmtOriginsList, List.mem_append] at ho
    rcases ho with hL | hR
    · have := lower_stmt_origins_wf s ids
      rw [h1] at this
      exact this o hL
    · have := lower_stmts_origins_wf rest ids1
      rw [h2] at this
      exact this o hR
termination_by structural ss

end

/-- The origin payload of a lowered function: its own origin, its
parameters' and its body's. -/
def funcOrigins (f : IRFunction) : List IROrigin :=
  f.origin :: (f.params.map (·.origin) ++ stmtOriginsList f.body)

theorem stmtOriginsList_append (a b : List IRStmt) :
    stmtOriginsList (a ++ b) = stmtOriginsList a ++ stmtOriginsList b := by
  induction a with
  | nil => simp [stmtOriginsList]
  | cons t ts ih => simp [stmtOriginsList, ih]

theorem lower_params_origins_wf (params : List Param) (acc : List IRParam × Nat)
    (hacc : ∀ o ∈ acc.1.map (·.origin), originWellFormed o) :
    ∀ o ∈ ((lower_params params acc).1.map (·.origin)), originWellFormed o := by
  induction params generalizing acc with
  | nil => exact hacc
  | cons p rest ih =>
    intro o ho
    rw [lower_params, List.foldl_cons] at ho
    rw [← lower_params] at ho
    refine ih _ ?_ o ho
    intro o' ho'
    rcases acc with ⟨ps, ids⟩
    simp only [idNext, List.map_append, List.mem_append] at ho'
    rcases ho' with h | h
    · exact hacc o' h
    · simp only [List.map_cons, List.map_nil, List.mem_singleton] at h
      subst h
      exact mk_origin_user_wf _ _ _ _

theorem lower_function_origins_wf (name : String) (params : List Param)
    (rt : Option TypeExpr) (body : List Stmt) (ids : Nat) :
    ∀ o ∈ funcOrigins (lower_function name params rt body ids).1, originWellFormed o := by
  intro o ho
  rcases hB : lower_stmts body (ids + 1) with ⟨bodyIR, ids1⟩
  rcases hP : lower_params params ([], ids1) with ⟨paramsIR, ids2⟩
  simp only [lower_function, idNext, hB, hP, funcOrigins, List.mem_cons,
    List.mem_append] at ho
  rcases ho with rfl | ho | ho
  · exact mk_origin_user_wf _ _ _ _
  · have := lower_params_origins_wf params ([], ids1) (by intro o' h; simp at h)
    rw [hP] at this
    exact this o ho
  · have := lower_stmts_origins_wf body (ids + 1)
    rw [hB] at this
    exact this o ho

/-- The accumulator invariant of `lower_program`'s item fold. -/
def lowerAccWF (acc : List IRStmt × List IRFunction × List String × Nat) : Prop :=
  (∀ o ∈ stmtOriginsList acc.1, originWellFormed o) ∧
  (∀ f ∈ acc.2.1, ∀ o ∈ funcOrigins f, originWellFormed o)

theorem lower_sec_step_wf (acc : List IRStmt × List IRFunction × List String × Nat)
    (st : Stmt) (hacc : lowerAccWF acc) : lowerAccWF (lower_sec_step acc st) := by
  rcases acc with ⟨top, fns, caps, ids⟩
  rcases hs : lower_stmt st ids with ⟨irs, ids1⟩
  rw [lower_sec_step]
  simp only [hs]
  refine ⟨?_, hacc.2⟩
  intro o ho
  rw [stmtOriginsList_append] at ho
  rcases List.mem_append.mp ho with h | h
  · exact hacc.1 o h
  · have := lower_stmt_origins_wf st ids
    rw [hs] at this
    refine this o ?_
    simpa [stmtOriginsList] using h

theorem section_fold_wf (body : List Stmt)
    (acc : List IRStmt × List IRFunction × List String × Nat) (hacc : lowerAccWF acc) :
    lowerAccWF (body.foldl lower_sec_step acc) := by
  induction body generalizing acc with
  | nil => exact hacc
  | cons st rest ih => exact ih _ (lower_sec_step_wf acc st hacc)

theorem lower_item_step_wf (acc : List IRStmt × List IRFunction × List String × Nat)
    (item : TopItem) (hacc : lowerAccWF acc) : lowerAccWF (lower_item_step acc item) := by
  cases item with
  | sec a b c body => exact section_fold_wf (body.getD []) acc hacc
  | stmt s =>
    cases s with
    | funcDef name params rt body =>
      rcases acc with ⟨top, fns, caps, ids⟩
      rcases hf : lower_function name params rt body ids with ⟨f, ids1⟩
      rw [lower_item_step]
      simp only [hf]
      refine ⟨hacc.1, ?_⟩
      intro f' hf' o ho
      rcases List.mem_append.mp hf' with h | h
      · exact hacc.2 f' h o ho
      · rcases List.mem_singleton.mp h with rfl
        have := lower_function_origins_wf name params rt body ids
        rw [hf] at this
        exact this o ho
    | ifStmt c t e => exact lower_sec_step_wf acc _ hacc
    | whileStmt c b => exact lower_sec_step_wf acc _ hacc
    | returnStmt v => exact lower_sec_step_wf acc _ hacc
    | showStmt v => exact lower_sec_step_wf acc _ hacc
    | assign n dt v => exact lower_sec_step_wf acc _ hacc
    | verifyStmt e => exact lower_sec_step_wf acc _ hacc
    | exprStmt e => exact lower_sec_step_wf acc _ hacc

theorem lower_program_fold_wf (items : List TopItem)
    (acc : List IRStmt × List IRFunction × List String × Nat) (hacc : lowerAccWF acc) :
    lowerAccWF (items.foldl lower_item_step acc) := by
  induction items generalizing acc with
  | nil => exact hacc
  | cons item rest ih => exact ih _ (lower_item_step_wf acc item hacc)

/-- **C5 counterexample.**  The claim says EVERY node of the lowered IR —
including every expression node — carries an origin.  But `lower_expr`'s
dict literals contain no `origin` key: lowering `show 1` yields a `show`
statement whose value expression (`kind = "lit"`) carries no origin
(`originOpt = none`), while the statement itself does. -/
theorem c5_counterexample :
    (lower_program pShow1 "main" "0.1.0").module.toplevel =
      [.showStmt (.lit (.int 1) (some ⟨"Int", Option.none, []⟩) Option.none)
        ⟨"👤", "[AST][📤][N1].show"⟩ ["io.show"] ["io"]] ∧
    ((lower_program pShow1 "main" "0.1.0").module.toplevel.head?.bind
      IRStmt.valueField).map IRExpr.originOpt = some Option.none := by
  constructor <;> rfl

/-- **C5 (amended).**  Every STATEMENT, function, parameter and module node
of the IR produced by lowering carries an origin `{actor, ref}` whose ref
has the `[Stage][Emoji][NodeId].[SubId]` shape and whose actor is `👤` or
`🤖`; expression nodes (`lit`, `var`, `unary`, `binary`, `call`) carry no
origin at all. -/
theorem c5_lowering_origins (p : Program) (moduleName semver : String) :
    ∀ o ∈ irOrigins (lower_program p moduleName semver), originWellFormed o := by
  intro o ho
  rcases hf : p.items.foldl lower_item_step ([], [], [], 0) with ⟨top, fns, caps, ids⟩
  have hwf : lowerAccWF (top, fns, caps, ids) := by
    have := lower_program_fold_wf p.items ([], [], [], 0)
      ⟨by intro o' h; simp [stmtOriginsList] at h, by intro f h; simp at h⟩
    rw [hf] at this
    exact this
  simp only [lower_program, hf, irOrigins, List.mem_cons, List.mem_append] at ho
  rcases ho with rfl | ho | ho
  · exact ⟨⟨"Lowering", "🧬", "IR0", "module", rfl⟩, .inr rfl⟩
  · exact hwf.1 o ho
  · rcases List.mem_flatten.mp ho with ⟨l, hl, hol⟩
    rcases List.mem_map.mp hl with ⟨f, hfmem, rfl⟩
    exact hwf.2 f hfmem o hol

/-- Witness for C5's amended theorem at the concrete program `show 1`
(its statement origin `[AST][📤][N1].show` is well-formed). -/
theorem c5_lowering_origins_witness :
    originWellFormed ⟨"👤", "[AST][📤][N1].show"⟩ :=
  c5_lowering_origins pShow1 "main" "0.1.0" ⟨"👤", "[AST][📤][N1].show"⟩
    (by
      simp [irOrigins, lower_program, lower_stmt, lower_expr, idNext, mk_origin,
        stmtOriginsList, stmtOrigins, IRStmt.origin, pShow1]
      exact Or.inl (by decide))

/-! ## The semantic type domain (`types.py`) -/

inductive Ty where
  | prim (name : String)   -- Int, Float, Bool, Text, Null
  | anyT
  | neverT
  | optional (inner : Ty)
  | listT (elem : Ty)
  | mapT (key val : Ty)
  | record (name : String)
  | result (ok err : Ty)
deriving DecidableEq, Repr

/-- `Type.__str__`. -/
def tyStr : Ty → String
  | .prim n => n
  | .anyT => "Any"
  | .neverT => "Never"
  | .optional t => tyStr t ++ "?"
  | .listT t => "List[" ++ tyStr t ++ "]"
  | .mapT k v => "Map[" ++ tyStr k ++ "," ++ tyStr v ++ "]"
  | .record n => n
  | .result o e => "Result[" ++ tyStr o ++ "," ++ tyStr e ++ "]"

def make_optional (t : Ty) : Ty :=
  match t with
  | .optional _ => t
  | _ => .optional t

/-- `assignable(src, dst)` from types.py, clause for clause. -/
def assignable (src dst : Ty) : Bool :=
  match dst, src with
  | .anyT, _ => true
  | _, .anyT => true
  | _, .neverT => true
  | dst, src =>
    if src == dst then true
    else if src == .prim "Null" && (match dst with | .optional _ => true | _ => false) then true
    else
      match dst with
      | .optional inner => assignable src inner
      | _ => false

/-- `join(a, b)`: the v0.1 least-upper-bound used by if/else merges. -/
def join (a b : Ty) : Ty :=
  if a == b then a
  else if a == .anyT || b == .anyT then .anyT
  else if a == .prim "Null" then make_optional b
  else if b == .prim "Null" then make_optional a
  else
    match a, b with
    | .optional ia, .optional _ => .anyT   -- both-Optional falls to the final ANY (ia unused)
    | .optional ia, b => .optional (join ia b)
    | a, .optional ib => .optional (join a ib)
    | _, _ => .anyT
termination_by (sizeOf a, sizeOf b)

/-! ## The flow-sensitive typechecker (`typecheck.py`) -/

structure Binding where
  typ : Ty
  provenNonNull : Bool
deriving DecidableEq, Repr

abbrev TFrame := List (String × Binding)

structure TCDiag where
  idref : String
  code : String
  severity : String
  messageHuman : String
  line : Nat
  col : Nat
  fix : Option String
deriving DecidableEq, Repr

structure TCState where
  diags : List TCDiag
  errN : Nat
  frames : List TFrame
  currentReturn : Option Ty
deriving DecidableEq, Repr

def tc0 : TCState := { diags := [], errN := 0, frames := [[]], currentReturn := Option.none }

/-- `TypeChecker.error`. -/
def tcError (st : TCState) (code msg : String) (line col : Nat) (fix : Option String) :
    TCState :=
  let n := st.errN + 1
  { st with
      errN := n
      diags := st.diags ++ [⟨s!"4🐛{n}", code, "error", msg, line, col, fix⟩] }

/-- `Env.get`: scan frames from the top (last) down. -/
def envGet (frames : List TFrame) (name : String) : Option Binding :=
  match frames with
  | [] => Option.none
  | fr :: rest =>
    match envGet rest name with
    | some b => some b
    | Option.none => dictGet fr name

/-- `Env.set`: bind in the top frame with the refinement flag cleared. -/
def envSet (frames : List TFrame) (name : String) (t : Ty) : List TFrame :=
  mapLast (fun fr => dictSet fr name ⟨t, false⟩) frames

/-- `Env.refine_non_null`: flip the flag on the nearest binding in place
(the Python code mutates the shared `Binding` object). -/
def refineAux (frames : List TFrame) (name : String) : Option (List TFrame) :=
  match frames with
  | [] => Option.none
  | fr :: rest =>
    match refineAux rest name with
    | some rest' => some (fr :: rest')
    | Option.none =>
      if (dictGet fr name).isSome then
        some ((fr.map fun p => if p.1 == name then (p.1, ⟨p.2.typ, true⟩) else p) :: rest)
      else Option.none

def refine_non_null (frames : List TFrame) (name : String) : List TFrame :=
  (refineAux frames name).getD frames

/-- `Env.current_type` for a name known to be bound. -/
def refinedType (b : Binding) : Ty :=
  if b.provenNonNull then
    match b.typ with
    | .optional inner => inner
    | t => t
  else b.typ

mutual

/-- `TypeChecker.type_of_expr`. -/
def type_of_expr (st : TCState) (e : Expr) : Ty × TCState :=
  match e with
  | .literal kind _ =>
    if kind == "Int" then (.prim "Int", st)
    else if kind == "Float" then (.prim "Float", st)
    else if kind == "Bool" then (.prim "Bool", st)
    else if kind == "Text" then (.prim "Text", st)
    else if kind == "Null" then (.prim "Null", st)
    else (.anyT, st)
  | .var name =>
    match envGet st.frames name with
    | Option.none =>
      (.anyT, tcError st "HND-TC-0101" ("Undefined variable \x27" ++ name ++ "\x27.") 1 1
        (some ("Declare \x27" ++ name ++ "\x27 before use (assign or add parameter type).")))
    | some b => (refinedType b, st)
  | .paren inner => type_of_expr st inner
  | .unary op inner =>
    let (t, st) := type_of_expr st inner
    if op == "-" then
      if t == .prim "Int" || t == .prim "Float" then (t, st)
      else
        (.anyT, tcError st "HND-TC-0201"
          ("Unary \x27-\x27 requires Int or Float, got " ++ tyStr t ++ ".") 1 1
          (some "Ensure the expression is numeric (Int/Float)."))
    else (.anyT, tcError st "HND-TC-0200" ("Unknown unary operator \x27" ++ op ++ "\x27.") 1 1 Option.none)
  | .binary l op r =>
    let (lt, st) := type_of_expr st l
    let (rt, st) := type_of_expr st r
    if op == "+" || op == "-" || op == "*" || op == "/" || op == "%" then
      if (lt == .prim "Int" || lt == .prim "Float") && (rt == .prim "Int" || rt == .prim "Float") then
        if lt == .prim "Float" || rt == .prim "Float" || op == "/" then (.prim "Float", st)
        else (.prim "Int", st)
      else if op == "+" && lt == .prim "Text" && rt == .prim "Text" then (.prim "Text", st)
      else
        (.anyT, tcError st "HND-TC-0202"
          ("Operator \x27" ++ op ++ "\x27 not defined for " ++ tyStr lt ++ " and " ++ tyStr rt ++ ".")
          1 1 (some "Use numeric types for arithmetic, or Text + Text for concatenation."))
    else if op == "==" || op == "!=" then (.prim "Bool", st)
    else if op == "<" || op == "<=" || op == ">" || op == ">=" then
      if (lt == .prim "Int" || lt == .prim "Float") && (rt == .prim "Int" || rt == .prim "Float") then
        (.prim "Bool", st)
      else
        (.prim "Bool", tcError st "HND-TC-0203"
          ("Comparison \x27" ++ op ++ "\x27 requires numeric operands, got "
            ++ tyStr lt ++ " and " ++ tyStr rt ++ ".") 1 1 Option.none)
    else (.anyT, tcError st "HND-TC-0200" ("Unknown binary operator \x27" ++ op ++ "\x27.") 1 1 Option.none)
  | .call callee args =>
    if callee == "len" then
      match args with
      | [a] => let (_, st) := type_of_expr st a; (.prim "Int", st)
      | _ => (.prim "Int", tcError st "HND-TC-0301" "len() expects exactly 1 argument." 1 1
          (some "Call len(x)."))
    else if callee == "ok" then
      match args with
      | [a] => let (ot, st) := type_of_expr st a; (.result ot (.prim "Text"), st)
      | _ => (.anyT, tcError st "HND-TC-0302" "ok() expects exactly 1 argument." 1 1
          (some "Call ok(value)."))
    else if callee == "err" then
      match args with
      | [a] => let (et, st) := type_of_expr st a; (.result .anyT et, st)
      | _ => (.anyT, tcError st "HND-TC-0303" "err() expects exactly 1 argument." 1 1 Option.none)
    else
      let st := tcError st "HND-TC-0300"
        ("Unknown function \x27" ++ callee ++ "\x27 in v0.1.") 1 1
        (some "Define the function with 🔧 or use a supported builtin.")
      (.anyT, type_of_expr_list st args)
termination_by structural e

/-- The `for a in e.args: self.type_of_expr(a)` loop of the unknown-call case. -/
def type_of_expr_list (st : TCState) : List Expr → TCState
  | [] => st
  | a :: rest =>
    let (_, st) := type_of_expr st a
    type_of_expr_list st rest
termination_by structural es => es

end

mutual

/-- `TypeChecker.lower_typeexpr`. -/
def lower_typeexpr (st : TCState) (te : TypeExpr) : Ty × TCState :=
  match te with
  | .name n =>
    if n == "Int" then (.prim "Int", st)
    else if n == "Float" then (.prim "Float", st)
    else if n == "Bool" then (.prim "Bool", st)
    else if n == "Text" then (.prim "Text", st)
    else if n == "Null" then (.prim "Null", st)
    else if n == "Any" then (.anyT, st)
    else if n == "Never" then (.neverT, st)
    else (.record n, st)
  | .optional inner =>
    let (t, st) := lower_typeexpr st inner
    (.optional t, st)
  | .app base args =>
    let (targs, st) := lower_typeexpr_list st args
    let badArity := fun (expected : String) (st : TCState) =>
      tcError st "HND-TC-1001"
        ("Type \x27" ++ base ++ "\x27 expects " ++ expected ++ s!", got {targs.length} argument(s).")
        1 1
        (some ("Use " ++ base ++ "[" ++ expected ++ "] with the correct number of type arguments."))
    if base == "List" then
      match targs with
      | [t] => (.listT t, st)
      | _ => (.anyT, badArity "T" st)
    else if base == "Map" then
      match targs with
      | [k, v] => (.mapT k v, st)
      | _ => (.anyT, badArity "K,V" st)
    else if base == "Result" then
      match targs with
      | [t, e] => (.result t e, st)
      | _ => (.anyT, badArity "T,E" st)
    else if base == "Record" then
      match targs with
      | [_] =>
        match args with
        | .name n :: _ => (.record n, st)
        | _ => (.anyT, st)
      | _ => (.anyT, badArity "Name" st)
    else (.anyT, st)
termination_by structural te

def lower_typeexpr_list (st : TCState) : List TypeExpr → List Ty × TCState
  | [] => ([], st)
  | t :: rest =>
    let (ty, st) := lower_typeexpr st t
    let (tys, st) := lower_typeexpr_list st rest
    (ty :: tys, st)
termination_by structural ts => ts

end

def lookup_in_snap (snap : List TFrame) (name : String) : Option Binding := envGet snap name

def namesOf (snap : List TFrame) : List String :=
  (snap.map (fun fr => fr.map (·.1))).flatten

/-- The per-name merged binding that `_merge_env` computes (the source
crashes on a name in neither branch; such names never come up because the
iteration is over the union — the `anyT` fallback is unreachable). -/
def mergedBinding (thenE elseE : List TFrame) (name : String) : Binding :=
  match lookup_in_snap thenE name, lookup_in_snap elseE name with
  | Option.none, some be => ⟨be.typ, false⟩
  | some bt, Option.none => ⟨bt.typ, false⟩
  | some bt, some be => ⟨join bt.typ be.typ, false⟩
  | Option.none, Option.none => ⟨.anyT, false⟩

/-- `TypeChecker._merge_env` (typecheck.py lines 359–380): collect the UNION
of the names of both branch environments, merge per name, restore `before`
and update its TOP frame with the merged dict.  (The Python set iteration
order only affects dict insertion order, which no lookup observes; the model
iterates the union in sorted order.) -/
def merge_env (before thenE elseE : List TFrame) : List TFrame :=
  let names := sortDedup (namesOf thenE ++ namesOf elseE)
  let merged := names.map fun name => (name, mergedBinding thenE elseE name)
  mapLast (fun fr => merged.foldl (fun f p => dictSet f p.1 p.2) fr) before

/-- `TypeChecker._check_block_with_env`'s flattening epilogue: pop the inner
frame and update the outer frame with it. -/
def flattenTop (st : TCState) : TCState :=
  match st.frames.getLast? with
  | Option.none => st
  | some inner =>
    let rest := st.frames.dropLast
    { st with frames := mapLast (fun outer => inner.foldl (fun f p => dictSet f p.1 p.2) outer) rest }

mutual

/-- `TypeChecker.check_stmt`. -/
def check_stmt (st : TCState) (s : Stmt) : TCState :=
  match s with
  | .assign name declaredType value =>
    let (rhs, st) := type_of_expr st value
    match declaredType with
    | some dte =>
      let (dt, st) := lower_typeexpr st dte
      let st :=
        if !(assignable rhs dt) then
          tcError st "HND-TC-1101"
            ("Cannot assign " ++ tyStr rhs ++ " to \x27" ++ name ++ "\x27 of type " ++ tyStr dt ++ ".")
            1 1
            (some ("Change the declared type of \x27" ++ name ++ "\x27 or convert the value to "
              ++ tyStr dt ++ "."))
        else st
      { st with frames := envSet st.frames name dt }
    | Option.none =>
      match envGet st.frames name with
      | some prev =>
        if (match prev.typ with | .optional _ => true | _ => false) && rhs == .prim "Null" then
          { st with frames := envSet st.frames name prev.typ }
        else { st with frames := envSet st.frames name rhs }
      | Option.none => { st with frames := envSet st.frames name rhs }
  | .showStmt v =>
    let (_, st) := type_of_expr st v
    st
  | .exprStmt e =>
    let (_, st) := type_of_expr st e
    st
  | .verifyStmt e =>
    match e with
    | .binary (.var name) "!=" (.literal "Null" _) =>
      match envGet st.frames name with
      | Option.none =>
        tcError st "HND-TC-1201"
          ("VERIFY references undefined variable \x27" ++ name ++ "\x27.") 1 1
          (some ("Declare \x27" ++ name ++ "\x27 before VERIFY."))
      | some bt =>
        if (match bt.typ with | .optional _ => true | _ => false) then
          { st with frames := refine_non_null st.frames name }
        else st
    | .var name =>
      match envGet st.frames name with
      | some bt =>
        if (match bt.typ with | .optional _ => true | _ => false) then
          { st with frames := refine_non_null st.frames name }
        else (type_of_expr st e).2
      | Option.none => (type_of_expr st e).2
    | _ => (type_of_expr st e).2
  | .returnStmt value =>
    match st.currentReturn with
    | Option.none =>
      match value with
      | some v => (type_of_expr st v).2
      | Option.none => st
    | some cr =>
      match value with
      | Option.none =>
        if !(cr == .prim "Null" || (match cr with | .optional _ => true | _ => false)) then
          tcError st "HND-TC-1301"
            ("Return type is " ++ tyStr cr ++ ", but \x27return\x27 has no value.") 1 1
            (some ("Return a value of type " ++ tyStr cr ++
              ", or declare return type as Optional (" ++ tyStr cr ++ "?)."))
        else st
      | some v =>
        let (rt, st) := type_of_expr st v
        if !(assignable rt cr) then
          tcError st "HND-TC-1302"
            ("Return type mismatch: expected " ++ tyStr cr ++ ", got " ++ tyStr rt ++ ".") 1 1
            (some ("Return a " ++ tyStr cr ++ ", or change function return type."))
        else st
  | .ifStmt cond thenB elseB =>
    let (ct, st) := type_of_expr st cond
    let st :=
      if ct != .prim "Bool" && ct != .anyT then
        tcError st "HND-TC-1401" ("If condition must be Bool, got " ++ tyStr ct ++ ".") 1 1
          (some "Use a boolean expression in if condition.")
      else st
    let before := st.frames
    let stT := flattenTop (check_stmts { st with frames := before ++ [[]] } thenB)
    let thenEnv := stT.frames
    let (elseEnv, st2) :=
      match elseB with
      | some eb =>
        let stE := flattenTop (check_stmts { stT with frames := before ++ [[]] } eb)
        (stE.frames, stE)
      | Option.none => (before, stT)
    { st2 with frames := merge_env before thenEnv elseEnv }
  | .whileStmt cond body =>
    let (ct, st) := type_of_expr st cond
    let st :=
      if ct != .prim "Bool" && ct != .anyT then
        tcError st "HND-TC-1501" ("While condition must be Bool, got " ++ tyStr ct ++ ".") 1 1
          Option.none
      else st
    let before := st.frames
    let stB := flattenTop (check_stmts { st with frames := before ++ [[]] } body)
    { stB with frames := before }
  | .funcDef _ params returnType body =>
    let oldReturn := st.currentReturn
    let st := { st with frames := st.frames ++ [[]] }
    let st := params.foldl
      (fun st p =>
        match p.type with
        | Option.none => { st with frames := envSet st.frames p.name .anyT }
        | some te =>
          let (t, st) := lower_typeexpr st te
          { st with frames := envSet st.frames p.name t })
      st
    let (cr, st) :=
      match returnType with
      | some rt => let (t, st) := lower_typeexpr st rt; (some t, st)
      | Option.none => (Option.none, st)
    let st := { st with currentReturn := cr }
    let st := check_stmts st body
    let st := { st with currentReturn := oldReturn }
    { st with frames := st.frames.dropLast }
termination_by structural s

/-- `for s in block: self.check_stmt(s)`. -/
def check_stmts (st : TCState) : List Stmt → TCState
  | [] => st
  | s :: rest => check_stmts (check_stmt st s) rest
termination_by structural ss => ss

end

/-! ## Claim C4: the if/else environment merge -/

theorem dictGet_map_set_eq {α : Type} (d : List (String × α)) (a : String) (v : α)
    (h : d.any (fun p => p.1 == a) = true) :
    dictGet (d.map (fun p => if p.1 == a then (a, v) else p)) a = some v := by
  induction d with
  | nil => simp at h
  | cons p rest ih =>
    by_cases hpa : (p.1 == a) = true
    · simp only [List.map_cons, hpa, if_true, dictGet]
      rw [List.find?_cons_of_pos _ (by simp)]
      rfl
    · simp only [List.any_cons, hpa, Bool.false_or] at h
      simp only [List.map_cons, hpa, if_false, Bool.false_eq_true, dictGet]
      rw [List.find?_cons_of_neg _ (by simp [hpa])]
      exact ih h

theorem dictGet_map_set_ne {α : Type} (d : List (String × α)) (a k : String) (v : α)
    (hak : (a == k) = false) :
    dictGet (d.map (fun p => if p.1 == a then (a, v) else p)) k = dictGet d k := by
  induction d with
  | nil => rfl
  | cons p rest ih =>
    by_cases hpa : (p.1 == a) = true
    · have hp1 : p.1 = a := by simpa [beq_iff_eq] using hpa
      have hpk : (p.1 == k) = false := by
        rw [hp1]
        exact hak
      simp only [List.map_cons, hpa, if_true, dictGet]
      rw [List.find?_cons_of_neg _ (by simp [hak]), List.find?_cons_of_neg _ (by simp [hpk])]
      exact ih
    · simp only [List.map_cons, hpa, if_false, Bool.false_eq_true, dictGet]
      by_cases hpk : (p.1 == k) = true
      · rw [List.find?_cons_of_pos _ (by simp [hpk]), List.find?_cons_of_pos _ (by simp [hpk])]
      · rw [List.find?_cons_of_neg _ (by simp [hpk]), List.find?_cons_of_neg _ (by simp [hpk])]
        exact ih

theorem dictGet_none_of_not_any {α : Type} (d : List (String × α)) (a : String)
    (h : d.any (fun p => p.1 == a) = false) : dictGet d a = Option.none := by
  induction d with
  | nil => rfl
  | cons p rest ih =>
    simp only [List.any_cons, Bool.or_eq_false_iff] at h
    simp only [dictGet]
    rw [List.find?_cons_of_neg _ (by simp [h.1])]
    exact ih h.2

theorem dictGet_append_one {α : Type} (d : List (String × α)) (a k : String) (v : α) :
    dictGet (d ++ [(a, v)]) k =
      match dictGet d k with
      | some w => some w
      | Option.none => if a == k then some v else Option.none := by
  induction d with
  | nil =>
    simp only [List.nil_append, dictGet]
    by_cases hak : (a == k) = true
    · rw [List.find?_cons_of_pos _ (by simp [hak])]
      simp [hak]
    · rw [List.find?_cons_of_neg _ (by simp [hak])]
      simp [hak, List.find?]
  | cons p rest ih =>
    simp only [List.cons_append, dictGet]
    by_cases hpk : (p.1 == k) = true
    · rw [List.find?_cons_of_pos _ (by simp [hpk]), List.find?_cons_of_pos _ (by simp [hpk])]
      rfl
    · rw [List.find?_cons_of_neg _ (by simp [hpk]), List.find?_cons_of_neg _ (by simp [hpk])]
      exact ih

theorem dictGet_dictSet {α : Type} (d : List (String × α)) (a k : String) (v : α) :
    dictGet (dictSet d a v) k = if a == k then some v else dictGet d k := by
  rw [dictSet]
  by_cases hany : d.any (fun p => p.1 == a) = true
  · rw [if_pos hany]
    by_cases hak : (a == k) = true
    · have hk : a = k := by simpa [beq_iff_eq] using hak
      subst hk
      rw [if_pos hak]
      exact dictGet_map_set_eq d a v hany
    · simp only [Bool.not_eq_true] at hak
      rw [if_neg (by simp [hak])]
      exact dictGet_map_set_ne d a k v hak
  · rw [if_neg hany]
    have hany2 : d.any (fun p => p.1 == a) = false := by
      cases hx : d.any (fun p => p.1 == a) with
      | true => exact absurd hx hany
      | false => rfl
    rw [dictGet_append_one]
    by_cases hak : (a == k) = true
    · have hk : a = k := by simpa [beq_iff_eq] using hak
      subst hk
      rw [dictGet_none_of_not_any d a hany2]
    · simp only [Bool.not_eq_true] at hak
      cases hd : dictGet d k with
      | none => simp [hak]
      | some w => simp [hak]

theorem dictGet_foldl_mapped {α : Type} (names : List String) (fn : String → α)
    (fr : List (String × α)) (k : String) :
    dictGet ((names.map (fun n => (n, fn n))).foldl (fun f p => dictSet f p.1 p.2) fr) k =
      if k ∈ names then some (fn k) else dictGet fr k := by
  induction names generalizing fr with
  | nil => simp
  | cons n rest ih =>
    simp only [List.map_cons, List.foldl_cons]
    rw [ih]
    by_cases hk : k ∈ rest
    · simp [hk]
    · by_cases hnk : n = k
      · subst hnk
        simp [hk, dictGet_dictSet]
      · have hmem : k ∉ n :: rest := by
          simp only [List.mem_cons]
          rintro (rfl | h)
          · exact hnk rfl
          · exact hk h
        rw [if_neg hk, if_neg hmem, dictGet_dictSet, if_neg (by simp [hnk])]

theorem mem_insertSorted (x y : String) (l : List String) :
    y ∈ insertSorted x l ↔ y = x ∨ y ∈ l := by
  induction l with
  | nil => simp [insertSorted]
  | cons z zs ih =>
    rw [insertSorted]
    split
    · simp [or_assoc]
    · split
      · next hlt heq =>
        have hzx : x = z := by simpa [beq_iff_eq] using heq
        subst hzx
        simp only [List.mem_cons]
        constructor
        · intro h; exact Or.inr h
        · rintro (rfl | h)
          · exact Or.inl rfl
          · exact h
      · simp only [List.mem_cons, ih]
        constructor
        · rintro (rfl | h | h)
          · exact Or.inr (Or.inl rfl)
          · exact Or.inl h
          · exact Or.inr (Or.inr h)
        · rintro (h | rfl | h)
          · exact Or.inr (Or.inl h)
          · exact Or.inl rfl
          · exact Or.inr (Or.inr h)

theorem mem_sortDedup_aux (l : List String) (acc : List String) (x : String) :
    x ∈ l.foldl (fun acc y => insertSorted y acc) acc ↔ x ∈ acc ∨ x ∈ l := by
  induction l generalizing acc with
  | nil => simp
  | cons y ys ih =>
    simp only [List.foldl_cons, ih, mem_insertSorted, List.mem_cons]
    tauto

theorem mem_sortDedup (x : String) (l : List String) : x ∈ sortDedup l ↔ x ∈ l := by
  rw [sortDedup, mem_sortDedup_aux]
  simp

theorem lookup_mem_namesOf (snap : List TFrame) (name : String) (b : Binding)
    (h : lookup_in_snap snap name = some b) : name ∈ namesOf snap := by
  rw [lookup_in_snap] at h
  induction snap with
  | nil => simp [envGet] at h
  | cons fr rest ih =>
    rw [envGet] at h
    simp only [namesOf, List.map_cons, List.flatten_cons, List.mem_append]
    rcases hr : envGet rest name with _ | b'
    · rw [hr] at h
      left
      rcases hf : fr.find? (fun p => p.1 == name) with _ | pr
      · rw [dictGet, hf] at h; cases h
      · have hmem := List.mem_of_find?_eq_some hf
        have hkey := List.find?_some hf
        have : pr.1 = name := by simpa [beq_iff_eq] using hkey
        subst this
        exact List.mem_map.mpr ⟨pr, hmem, rfl⟩
    · rw [hr] at h
      right
      have := ih (by rw [hr]; exact h)
      simpa [namesOf] using this

theorem getLast?_mapLast {α : Type} (f : α → α) (l : List α) :
    (mapLast f l).getLast? = l.getLast?.map f := by
  induction l with
  | nil => rfl
  | cons x xs ih =>
    cases xs with
    | nil => rfl
    | cons y ys =>
      obtain ⟨z, zs, hz⟩ : ∃ z zs, mapLast f (y :: ys) = z :: zs := by
        cases ys with
        | nil => exact ⟨f y, [], rfl⟩
        | cons w ws => exact ⟨y, mapLast f (w :: ws), rfl⟩
      calc (mapLast f (x :: y :: ys)).getLast?
          = (x :: z :: zs).getLast? := by rw [show mapLast f (x :: y :: ys) = x :: mapLast f (y :: ys) from rfl, hz]
        _ = (z :: zs).getLast? := by rw [List.getLast?_cons_cons]
        _ = (mapLast f (y :: ys)).getLast? := by rw [hz]
        _ = Option.map f (y :: ys).getLast? := ih

/-- The per-name content of `_merge_env`'s result: for any name bound in
either branch environment, the top frame of the merged environment maps it
to the merged binding. -/
theorem merge_env_lookup (before thenE elseE : List TFrame) (name : String)
    (hb : before ≠ []) (hmem : name ∈ namesOf thenE ++ namesOf elseE) :
    ∃ fr : TFrame, (merge_env before thenE elseE).getLast? = some fr ∧
      dictGet fr name = some (mergedBinding thenE elseE name) := by
  rw [merge_env]
  rcases hlast : before.getLast? with _ | lastFr
  · exact absurd (List.getLast?_eq_none_iff.mp hlast) hb
  · refine ⟨(sortDedup (namesOf thenE ++ namesOf elseE)).map
        (fun n => (n, mergedBinding thenE elseE n)) |>.foldl
        (fun f p => dictSet f p.1 p.2) lastFr, ?_, ?_⟩
    · rw [getLast?_mapLast, hlast]
      rfl
    · rw [dictGet_foldl_mapped]
      rw [if_pos ((mem_sortDedup _ _).mpr hmem)]

/-- **C4 counterexample.**  For the if statement
`if true:` / `    y = 1` (no else), the typechecker's merged environment
KEEPS `y` (with the then branch's type `Int`): `_merge_env` collects the
UNION of both branches' names and, for a name bound in only one branch,
takes that branch's binding (`t = t_then.typ` when `t_else is None`).  The
claim instead says such names are dropped from the merged frame. -/
theorem c4_counterexample :
    (check_stmt tc0 (.ifStmt (.literal "Bool" (.bool true))
        [.assign "y" Option.none (.literal "Int" (.int 1))] Option.none)).frames =
      [[("y", ⟨.prim "Int", false⟩)]] ∧
    (check_stmt tc0 (.ifStmt (.literal "Bool" (.bool true))
        [.assign "y" Option.none (.literal "Int" (.int 1))] Option.none)).diags = [] := by
  constructor <;> rfl

/-- **C4 (amended).**  For every if statement the typechecker checks the
`then` and `else` bodies in snapshotted environments and merges with
`_merge_env` (see `check_stmt`'s `ifStmt` branch, which is exactly
`merge_env before thenEnv elseEnv`); the merge takes a per-name JOIN for
names bound in both branch environments, and a name bound in only one
branch is KEPT with that branch's type (not dropped).  All merged bindings
lose their non-null refinement flag. -/
theorem c4_merge_env_join_and_keep (before thenE elseE : List TFrame) (name : String)
    (hb : before ≠ []) :
    (∀ bt be, lookup_in_snap thenE name = some bt → lookup_in_snap elseE name = some be →
      ∃ fr : TFrame, (merge_env before thenE elseE).getLast? = some fr ∧
        dictGet fr name = some ⟨join bt.typ be.typ, false⟩) ∧
    (∀ bt, lookup_in_snap thenE name = some bt → lookup_in_snap elseE name = Option.none →
      ∃ fr : TFrame, (merge_env before thenE elseE).getLast? = some fr ∧
        dictGet fr name = some ⟨bt.typ, false⟩) ∧
    (∀ be, lookup_in_snap thenE name = Option.none → lookup_in_snap elseE name = some be →
      ∃ fr : TFrame, (merge_env before thenE elseE).getLast? = some fr ∧
        dictGet fr name = some ⟨be.typ, false⟩) := by
  refine ⟨?_, ?_, ?_⟩
  · intro bt be hT hE
    have := merge_env_lookup before thenE elseE name hb
      (List.mem_append.mpr (Or.inl (lookup_mem_namesOf thenE name bt hT)))
    rwa [show mergedBinding thenE elseE name = ⟨join bt.typ be.typ, false⟩ by
      rw [mergedBinding, hT, hE]] at this
  · intro bt hT hE
    have := merge_env_lookup before thenE elseE name hb
      (List.mem_append.mpr (Or.inl (lookup_mem_namesOf thenE name bt hT)))
    rwa [show mergedBinding thenE elseE name = ⟨bt.typ, false⟩ by
      rw [mergedBinding, hT, hE]] at this
  · intro be hT hE
    have := merge_env_lookup before thenE elseE name hb
      (List.mem_append.mpr (Or.inr (lookup_mem_namesOf elseE name be hE)))
    rwa [show mergedBinding thenE elseE name = ⟨be.typ, false⟩ by
      rw [mergedBinding, hT, hE]] at this

/-- Witness for C4's amended theorem: the then-branch environment of the
counterexample binds `y : Int`, the else environment does not, and the
merged top frame keeps `y : Int` with the flag cleared. -/
theorem c4_merge_env_join_and_keep_witness :
    ∃ fr : TFrame,
      (merge_env [[]] [[("y", ⟨.prim "Int", false⟩)]] [[]]).getLast? = some fr ∧
      dictGet fr "y" = some ⟨.prim "Int", false⟩ :=
  (c4_merge_env_join_and_keep [[]] [[("y", ⟨.prim "Int", false⟩)]] [[]] "y"
    (by simp)).2.1 ⟨.prim "Int", false⟩ (by rfl) (by rfl)

/-! ## The lexer (`handc_parser_v0_1/src/handc/lexer.py`)

The lexer consults Python `unicodedata` (category So for emoji, Unicode
letters and digits for `_re_ident_uni` and `\d`, Unicode whitespace for
`str.strip`).  Those classifications are modelled by an explicit table
`UTable`; everything else is translated from `lexer.py`.  Characters are
compared through their code points. -/

namespace Lexer

/-- Oracle for the Unicode character classes the lexer consults via
`unicodedata` and `re` on non-ASCII characters: `isLetter` is category L*
(the `[^\W\d_]` class), `isDigitU` non-ASCII decimal digits (`\d`),
`isSo` category So (`_is_emoji_start`), `isSpaceU` non-ASCII whitespace
(`str.strip` / `str.isspace`).  Concrete theorems instantiate it on the
characters they use. -/
structure UTable where
  isLetter : Char → Bool
  isDigitU : Char → Bool
  isSo : Char → Bool
  isSpaceU : Char → Bool

/-- `SrcLoc` of `diagnostics.py`. -/
structure SrcLoc where
  file : String
  line : Nat
  col : Nat
  deriving Repr, DecidableEq

/-- `Diagnostic` of `diagnostics.py` (fields `idref`, `code`, `severity`,
`message_human`, `src`, `fix`). -/
structure Diagnostic where
  idref : String
  code : String
  severity : String
  message_human : String
  src : SrcLoc
  fix : Option String
  deriving Repr, DecidableEq

/-- `Span` of `lexer.py` (`end_col` exclusive). -/
structure Span where
  file : String
  line : Nat
  col : Nat
  end_col : Nat
  deriving Repr, DecidableEq

/-- `Token` of `lexer.py`. -/
structure Token where
  kind : String
  value : String
  span : Span
  deriving Repr, DecidableEq

/-- `KEYWORDS` of `lexer.py`. -/
def KEYWORDS : List String :=
  ["if", "else", "while", "return",
   "ask", "show", "log",
   "true", "false", "null",
   "Int", "Float", "Bool", "Text", "Null", "List", "Map", "Record", "Result", "Any", "Never"]

/-- Python `str.isspace` and `str.strip`: ASCII whitespace 9–13, 28–32,
plus non-ASCII whitespace through the table. -/
abbrev isPySpace (tbl : UTable) (c : Char) : Prop :=
  (9 ≤ c.toNat ∧ c.toNat ≤ 13) ∨ (28 ≤ c.toNat ∧ c.toNat ≤ 32) ∨ tbl.isSpaceU c = true

/-- Start of `_re_ident_uni`: `[A-Za-z_]` (65–90, 97–122, 95) or a Unicode
letter (`[^\W\d_]`). -/
abbrev identStart (tbl : UTable) (c : Char) : Prop :=
  (65 ≤ c.toNat ∧ c.toNat ≤ 90) ∨ (97 ≤ c.toNat ∧ c.toNat ≤ 122) ∨ c.toNat = 95 ∨
    tbl.isLetter c = true

/-- Decimal digit for `_re_number` and the `\d` branch of
`_re_ident_uni`: ASCII 48–57 or a non-ASCII Unicode digit. -/
abbrev numDigit (tbl : UTable) (c : Char) : Prop :=
  (48 ≤ c.toNat ∧ c.toNat ≤ 57) ∨ tbl.isDigitU c = true

/-- Continuation of `_re_ident_uni`: `[A-Za-z0-9_]`, `\d`, or `[^\W_]`
(letter or digit). -/
abbrev identCont (tbl : UTable) (c : Char) : Prop :=
  identStart tbl c ∨ numDigit tbl c

/-- `_is_emoji_continue`: ZWJ (8205), VS15/VS16 (65038/65039), skin tones
(0x1F3FB–0x1F3FF), or category So; the caller also requires `ord > 127`. -/
abbrev emojiCont (tbl : UTable) (c : Char) : Prop :=
  127 < c.toNat ∧
    (c.toNat = 8205 ∨ c.toNat = 65038 ∨ c.toNat = 65039 ∨
      (127995 ≤ c.toNat ∧ c.toNat ≤ 127999) ∨ tbl.isSo c = true)

/-- Lexer state threaded through `lex`: emitted tokens, diagnostics, the
counters `lex_err_n` and `ind_err_n`, and the indent stack (top at head;
Python keeps the top at the end of its list). -/
structure LexState where
  toks : List Token
  diags : List Diagnostic
  lexErrN : Nat
  indErrN : Nat
  stack : List Nat
  deriving Repr, DecidableEq

/-- Append one token. -/
def addTok (t : Token) (st : LexState) : LexState :=
  { st with toks := st.toks ++ [t] }

/-- `lex_error` of `lexer.py`: bump `lex_err_n` and append a diagnostic
with idref `1🐛{n}`. -/
def lex_error (fname : String) (li col : Nat) (code msg : String) (fix : Option String)
    (st : LexState) : LexState :=
  let n := st.lexErrN + 1
  { st with
      lexErrN := n
      diags := st.diags ++ [⟨"1🐛" ++ toString n, code, "error", msg, ⟨fname, li, col⟩, fix⟩] }

/-- `ind_error` of `lexer.py`: bump `ind_err_n` and append a diagnostic
with idref `2🐛{n}` at column 1. -/
def ind_error (fname : String) (li : Nat) (code msg : String) (fix : Option String)
    (st : LexState) : LexState :=
  let n := st.indErrN + 1
  { st with
      indErrN := n
      diags := st.diags ++ [⟨"2🐛" ++ toString n, code, "error", msg, ⟨fname, li, 1⟩, fix⟩] }

/-- Scanner for `_re_string = "([^"\\]|\\.)*"`, applied to the characters
after the opening quote; returns the body (escapes kept verbatim) and the
rest after the closing quote, or none when the regex does not match. -/
def scanStringBody (cs : List Char) : Option (List Char × List Char) :=
  match cs with
  | [] => Option.none
  | c :: rest =>
    if c.toNat = 34 then some ([], rest)
    else if c.toNat = 92 then
      match rest with
      | [] => Option.none
      | d :: rest2 =>
        match scanStringBody rest2 with
        | some (body, after) => some (c :: d :: body, after)
        | Option.none => Option.none
    else
      match scanStringBody rest with
      | some (body, after) => some (c :: body, after)
      | Option.none => Option.none
termination_by structural cs

/-- `line.index("\t")` (0-based) when a tab is present. -/
def tabIndex (cs : List Char) (i : Nat) : Option Nat :=
  match cs with
  | [] => Option.none
  | c :: rest => if c.toNat = 9 then some i else tabIndex rest (i + 1)
termination_by structural cs

/-- Surrogate scan (lexer.py 139–141).  A Lean `Char` is always a valid
scalar value, so the branch can never fire; it is kept for fidelity. -/
def surrogateCheck (fname : String) (li : Nat) (cs : List Char) (idx : Nat)
    (st : LexState) : LexState :=
  match cs with
  | [] => st
  | c :: rest =>
    let st :=
      if 55296 ≤ c.toNat ∧ c.toNat ≤ 57343 then
        lex_error fname li (idx + 1) "HND-LEX-0003"
          "Invalid Unicode surrogate code point in source."
          (some "Ensure the file is valid UTF-8 text.") st
      else st
    surrogateCheck fname li rest (idx + 1) st
termination_by structural cs

/-- The four branches of the character loop that consume exactly one
character: one-character operators, punctuation, the non-ASCII error
HND-LEX-0004, and the catch-all HND-LEX-0001 (lexer.py 217–233). -/
def lexSingle (fname : String) (li : Nat) (ch : Char) (col : Nat) (st : LexState) : LexState :=
  -- one-character members of OPS: < > + - * / %  (60 62 43 45 42 47 37)
  if ch.toNat = 60 ∨ ch.toNat = 62 ∨ ch.toNat = 43 ∨ ch.toNat = 45 ∨
      ch.toNat = 42 ∨ ch.toNat = 47 ∨ ch.toNat = 37 then
    addTok ⟨"OP", String.mk [ch], ⟨fname, li, col, col + 1⟩⟩ st
  -- SINGLE: ":" COLON (58), "," COMMA (44), "(" LPAREN (40), ")" RPAREN (41), "=" EQ (61)
  else if ch.toNat = 58 then addTok ⟨"COLON", ":", ⟨fname, li, col, col + 1⟩⟩ st
  else if ch.toNat = 44 then addTok ⟨"COMMA", ",", ⟨fname, li, col, col + 1⟩⟩ st
  else if ch.toNat = 40 then addTok ⟨"LPAREN", "(", ⟨fname, li, col, col + 1⟩⟩ st
  else if ch.toNat = 41 then addTok ⟨"RPAREN", ")", ⟨fname, li, col, col + 1⟩⟩ st
  else if ch.toNat = 61 then addTok ⟨"EQ", "=", ⟨fname, li, col, col + 1⟩⟩ st
  else if 127 < ch.toNat then
    lex_error fname li col "HND-LEX-0004"
      ("Non-ASCII character \x27" ++ String.mk [ch] ++
        "\x27 is not allowed here in HAND Core v0.1.")
      (some "Move it into a string literal, use an identifier, or replace it.") st
  else
    lex_error fname li col "HND-LEX-0001"
      ("Unexpected character \x27" ++ String.mk [ch] ++ "\x27.")
      (some "Remove or replace the character.") st

/-- The per-line character loop of `lex` (lexer.py 168–233).  `cs` is the
rest of the line, `i` the 0-based position, `col` the 1-based column.  The
fuel only bounds the iteration count; every iteration consumes at least one
character, so `line.length + 1` is always enough. -/
def lexChars (tbl : UTable) (fname : String) (li : Nat) (fuel : Nat) (cs : List Char)
    (i col : Nat) (st : LexState) : LexState :=
  match fuel, cs with
  | 0, _ => st
  | _ + 1, [] => st
  | fuel + 1, ch :: rest =>
    -- spaces are skipped
    if ch.toNat = 32 then lexChars tbl fname li fuel rest (i + 1) (col + 1) st
    -- emoji token: `ord(ch) > 127 and _is_emoji_start(ch)`
    else if 127 < ch.toNat ∧ tbl.isSo ch = true then
      let em := rest.takeWhile (fun x => decide (emojiCont tbl x))
      let rest2 := rest.dropWhile (fun x => decide (emojiCont tbl x))
      let n := em.length + 1
      lexChars tbl fname li fuel rest2 (i + n) (col + n)
        (addTok ⟨"EMOJI", String.mk (ch :: em), ⟨fname, li, col, col + n⟩⟩ st)
    else
      -- string: `_re_string.match(line, i)` only matches at a quote
      match (if ch.toNat = 34 then scanStringBody rest else Option.none) with
      | some (body, rest2) =>
        let n := body.length + 2
        lexChars tbl fname li fuel rest2 (i + n) (i + n + 1)
          (addTok ⟨"STRING", String.mk ((ch :: body) ++ [ch]), ⟨fname, li, col, col + n⟩⟩ st)
      | Option.none =>
        -- identifier / keyword: `_re_ident_uni.match or _re_ident_ascii.match`
        if identStart tbl ch then
          let tail := rest.takeWhile (fun x => decide (identCont tbl x))
          let rest2 := rest.dropWhile (fun x => decide (identCont tbl x))
          let ident := String.mk (ch :: tail)
          let n := tail.length + 1
          lexChars tbl fname li fuel rest2 (i + n) (i + n + 1)
            (addTok ⟨if ident ∈ KEYWORDS then "KEYWORD" else "IDENT", ident,
              ⟨fname, li, col, col + n⟩⟩ st)
        -- number: `\d+\.\d+|\d+`
        else if numDigit tbl ch then
          let ds := rest.takeWhile (fun x => decide (numDigit tbl x))
          let rest1 := rest.dropWhile (fun x => decide (numDigit tbl x))
          let vr : List Char × List Char :=
            match rest1 with
            | dot :: rest1b =>
              if dot.toNat = 46 then
                let ds2 := rest1b.takeWhile (fun x => decide (numDigit tbl x))
                if ds2 = [] then (ch :: ds, rest1)
                else ((ch :: ds) ++ dot :: ds2, rest1b.dropWhile (fun x => decide (numDigit tbl x)))
              else (ch :: ds, rest1)
            | [] => (ch :: ds, rest1)
          let n := vr.1.length
          lexChars tbl fname li fuel vr.2 (i + n) (i + n + 1)
            (addTok ⟨"NUMBER", String.mk vr.1, ⟨fname, li, col, col + n⟩⟩ st)
        else
          -- two-character operators: ==  !=  >=  <=
          match rest with
          | c2 :: rest2b =>
            if (ch.toNat = 61 ∨ ch.toNat = 33 ∨ ch.toNat = 62 ∨ ch.toNat = 60) ∧
                c2.toNat = 61 then
              lexChars tbl fname li fuel rest2b (i + 2) (col + 2)
                (addTok ⟨"OP", String.mk [ch, c2], ⟨fname, li, col, col + 2⟩⟩ st)
            else lexChars tbl fname li fuel rest (i + 1) (col + 1) (lexSingle fname li ch col st)
          | [] => lexChars tbl fname li fuel rest (i + 1) (col + 1) (lexSingle fname li ch col st)
termination_by structural fuel

/-- `while indent_stack and indent < indent_stack[-1]` (lexer.py 159–161):
pop levels, emitting a DEDENT for each, and return the remaining stack. -/
def dedentLoop (fname : String) (li indent : Nat) (stack : List Nat) (st : LexState) :
    List Nat × LexState :=
  match stack with
  | [] => ([], st)
  | top :: rest =>
    if indent < top then
      dedentLoop fname li indent rest (addTok ⟨"DEDENT", "", ⟨fname, li, 1, 1⟩⟩ st)
    else (top :: rest, st)
termination_by structural stack

/-- One iteration of `for li, raw in enumerate(lines, start=1)`
(lexer.py 130–235). -/
def lexLine (tbl : UTable) (fname : String) (li : Nat) (line : List Char)
    (st : LexState) : LexState :=
  -- tabs forbidden
  let st :=
    match tabIndex line 0 with
    | some idx =>
      lex_error fname li (idx + 1) "HND-LEX-0002" "Tabs are forbidden. Use spaces only."
        (some "Replace tabs with 4 spaces per indent level.") st
    | Option.none => st
  let st := surrogateCheck fname li line 0 st
  -- blank line: NEWLINE only, no indent handling
  if line.all (fun c => decide (isPySpace tbl c)) then
    addTok ⟨"NEWLINE", "\n", ⟨fname, li, 1, 1⟩⟩ st
  else
    let indent := (line.takeWhile (fun c => decide (c.toNat = 32))).length
    let st :=
      if indent % 4 ≠ 0 then
        ind_error fname li "HND-INDENT-0001" "Indentation must be a multiple of 4 spaces."
          (some "Use 4 spaces per indent level.") st
      else st
    let top := st.stack.headD 0
    let st :=
      if top < indent then
        let st :=
          if indent - top ≠ 4 then
            ind_error fname li "HND-INDENT-0002"
              ("Indentation jump too large: " ++ toString top ++ " -> " ++ toString indent ++ ".")
              (some "Increase indentation by exactly 4 spaces.") st
          else st
        addTok ⟨"INDENT", "", ⟨fname, li, 1, 1⟩⟩ { st with stack := indent :: st.stack }
      else if indent < top then
        let pr := dedentLoop fname li indent st.stack st
        let st := { pr.2 with stack := pr.1 }
        if indent ≠ pr.1.headD 0 then
          ind_error fname li "HND-INDENT-0003"
            ("Dedent does not match any previous indentation level: got " ++ toString indent ++ ".")
            (some "Match a previous indentation level (multiples of 4).") st
        else st
      else st
    let st := lexChars tbl fname li (line.length + 1) (line.drop indent) indent (indent + 1) st
    addTok ⟨"NEWLINE", "\n", ⟨fname, li, line.length + 1, line.length + 1⟩⟩ st

/-- CRLF/CR → LF (`text.replace("\r\n","\n").replace("\r","\n")`). -/
def normNewlines (cs : List Char) : List Char :=
  match cs with
  | [] => []
  | [c] => if c.toNat = 13 then [Char.ofNat 10] else [c]
  | c :: d :: rest =>
    if c.toNat = 13 then
      if d.toNat = 10 then Char.ofNat 10 :: normNewlines rest
      else Char.ofNat 10 :: normNewlines (d :: rest)
    else c :: normNewlines (d :: rest)
termination_by structural cs

/-- `str.split("\n")`: always at least one part. -/
def splitNl (cs : List Char) : List (List Char) :=
  match cs with
  | [] => [[]]
  | c :: rest =>
    if c.toNat = 10 then [] :: splitNl rest
    else
      match splitNl rest with
      | l :: ls => (c :: l) :: ls
      | [] => [[c]]
termination_by structural cs

/-- The line list seen by `lex` (lexer.py 94–100): normalise newlines, drop
one trailing newline, split on LF. -/
def sourceLines (text : List Char) : List (List Char) :=
  let t := normNewlines text
  if t.getLast? = some (Char.ofNat 10) then splitNl t.dropLast else splitNl t

/-- Run `lexLine` over the numbered lines. -/
def lexLines (tbl : UTable) (fname : String) (li : Nat) (ls : List (List Char))
    (st : LexState) : LexState :=
  match ls with
  | [] => st
  | l :: rest => lexLines tbl fname (li + 1) rest (lexLine tbl fname li l st)
termination_by structural ls

/-- Trailing `while len(indent_stack) > 1: pop; DEDENT` (lexer.py 237–239). -/
def closeDedents (fname : String) (nLines : Nat) (stack : List Nat) (st : LexState) : LexState :=
  match stack with
  | [] => st
  | [_] => st
  | _ :: b :: rest =>
    closeDedents fname nLines (b :: rest) (addTok ⟨"DEDENT", "", ⟨fname, nLines, 1, 1⟩⟩ st)
termination_by structural stack

/-- `lex` of `lexer.py`: produce the token and diagnostic lists of a
source text. -/
def lex (tbl : UTable) (text : List Char) (filename : String) :
    List Token × List Diagnostic :=
  let lines := sourceLines text
  let st := lexLines tbl filename 1 lines ⟨[], [], 0, 0, [0]⟩
  let st := closeDedents filename lines.length st.stack st
  let st := addTok ⟨"EOF", "", ⟨filename, lines.length + 1, 1, 1⟩⟩ st
  (st.toks, st.diags)

end Lexer

/-! ## Claim C8: Unicode identifier starts -/

namespace Lexer

theorem char_not_surrogate (c : Char) : ¬(55296 ≤ c.toNat ∧ c.toNat ≤ 57343) := by
  have h : c.val.toNat < 55296 ∨ (57343 < c.val.toNat ∧ c.val.toNat < 1114112) := c.valid
  have ht : c.toNat = c.val.toNat := rfl
  rintro ⟨ha, hb⟩
  rw [ht] at ha hb
  rcases h with h | ⟨h1, h2⟩ <;> omega

theorem sourceLines_single (c : Char) (h13 : c.toNat ≠ 13) (h10 : c.toNat ≠ 10) :
    sourceLines [c, Char.ofNat 10] = [[c]] := by
  have hg : ¬((Char.ofNat 10).toNat = 13) := by decide
  have h1 : normNewlines [c, Char.ofNat 10] = [c, Char.ofNat 10] := by
    simp only [normNewlines]
    rw [if_neg h13, if_neg hg]
  rw [sourceLines]
  rw [h1]
  rw [if_pos (by simp)]
  simp only [List.dropLast]
  simp only [splitNl]
  rw [if_neg h10]

theorem lex_single_letter (tbl : UTable) (c : Char) (fname : String)
    (h127 : 127 < c.toNat) (hL : tbl.isLetter c = true) (hS : tbl.isSo c = false)
    (hW : tbl.isSpaceU c = false) (hK : ¬(String.mk [c] ∈ KEYWORDS)) :
    lex tbl [c, Char.ofNat 10] fname =
      ([⟨"IDENT", String.mk [c], ⟨fname, 1, 1, 2⟩⟩,
        ⟨"NEWLINE", "\n", ⟨fname, 1, 2, 2⟩⟩,
        ⟨"EOF", "", ⟨fname, 2, 1, 1⟩⟩], []) := by
  have e9 : ((c.toNat = 9) ↔ False) := iff_false_intro (by omega)
  have e32 : ((c.toNat = 32) ↔ False) := iff_false_intro (by omega)
  have e34 : ((c.toNat = 34) ↔ False) := iff_false_intro (by omega)
  have l13 : ((c.toNat ≤ 13) ↔ False) := iff_false_intro (by omega)
  have l32 : ((c.toNat ≤ 32) ↔ False) := iff_false_intro (by omega)
  have l90 : ((c.toNat ≤ 90) ↔ False) := iff_false_intro (by omega)
  have l122 : ((c.toNat ≤ 122) ↔ False) := iff_false_intro (by omega)
  have hsur : ((55296 ≤ c.toNat ∧ c.toNat ≤ 57343) ↔ False) :=
    iff_false_intro (char_not_surrogate c)
  have hkw : ((String.mk [c] ∈ KEYWORDS) ↔ False) := iff_false_intro hK
  have h127T : ((127 < c.toNat) ↔ True) := iff_true_intro h127
  have d32 : decide (c.toNat = 32) = false := decide_eq_false (by omega)
  have dsp : decide (isPySpace tbl c) = false :=
    decide_eq_false (by
      rintro (⟨_, h⟩ | ⟨_, h⟩ | h)
      · omega
      · omega
      · rw [hW] at h
        exact Bool.false_ne_true h)
  rw [lex, sourceLines_single c (by omega) (by omega)]
  simp only [lexLines, lexLine, tabIndex, surrogateCheck, lexChars, lexSingle, addTok,
    lex_error, ind_error, identStart, identCont, numDigit, scanStringBody,
    closeDedents, List.takeWhile, List.dropWhile, List.all_cons, List.all_nil,
    List.drop, List.length, List.headD, e9, e32, e34, l13, l32, l90, l122, hsur, hkw,
    hL, hS, hW, d32, dsp, h127T,
    decide_False, decide_True, if_false, if_true, Bool.false_eq_true, Bool.true_eq_false,
    and_false, false_and, and_true, true_and, or_false, false_or, or_true, true_or,
    iff_false, iff_true,
    Bool.false_ne_true, ne_eq, Nat.zero_mod, not_false_iff, not_true, lt_irrefl,
    List.length_nil, List.length_cons, List.nil_append, List.cons_append, List.append_nil]
  rfl

theorem lex_single_reject (tbl : UTable) (c : Char) (fname : String)
    (h127 : 127 < c.toNat) (hL : tbl.isLetter c = false) (hS : tbl.isSo c = false)
    (hD : tbl.isDigitU c = false) (hW : tbl.isSpaceU c = false) :
    lex tbl [c, Char.ofNat 10] fname =
      ([⟨"NEWLINE", "\n", ⟨fname, 1, 2, 2⟩⟩,
        ⟨"EOF", "", ⟨fname, 2, 1, 1⟩⟩],
       [⟨"1🐛1", "HND-LEX-0004", "error",
         "Non-ASCII character \x27" ++ String.mk [c] ++
           "\x27 is not allowed here in HAND Core v0.1.",
         ⟨fname, 1, 1⟩,
         some "Move it into a string literal, use an identifier, or replace it."⟩]) := by
  have e9 : ((c.toNat = 9) ↔ False) := iff_false_intro (by omega)
  have e32 : ((c.toNat = 32) ↔ False) := iff_false_intro (by omega)
  have e34 : ((c.toNat = 34) ↔ False) := iff_false_intro (by omega)
  have e95 : ((c.toNat = 95) ↔ False) := iff_false_intro (by omega)
  have e60 : ((c.toNat = 60) ↔ False) := iff_false_intro (by omega)
  have e62 : ((c.toNat = 62) ↔ False) := iff_false_intro (by omega)
  have e43 : ((c.toNat = 43) ↔ False) := iff_false_intro (by omega)
  have e45 : ((c.toNat = 45) ↔ False) := iff_false_intro (by omega)
  have e42 : ((c.toNat = 42) ↔ False) := iff_false_intro (by omega)
  have e47 : ((c.toNat = 47) ↔ False) := iff_false_intro (by omega)
  have e37 : ((c.toNat = 37) ↔ False) := iff_false_intro (by omega)
  have e58 : ((c.toNat = 58) ↔ False) := iff_false_intro (by omega)
  have e44 : ((c.toNat = 44) ↔ False) := iff_false_intro (by omega)
  have e40 : ((c.toNat = 40) ↔ False) := iff_false_intro (by omega)
  have e41 : ((c.toNat = 41) ↔ False) := iff_false_intro (by omega)
  have e61 : ((c.toNat = 61) ↔ False) := iff_false_intro (by omega)
  have l13 : ((c.toNat ≤ 13) ↔ False) := iff_false_intro (by omega)
  have l32 : ((c.toNat ≤ 32) ↔ False) := iff_false_intro (by omega)
  have l57 : ((c.toNat ≤ 57) ↔ False) := iff_false_intro (by omega)
  have l90 : ((c.toNat ≤ 90) ↔ False) := iff_false_intro (by omega)
  have l122 : ((c.toNat ≤ 122) ↔ False) := iff_false_intro (by omega)
  have hsur : ((55296 ≤ c.toNat ∧ c.toNat ≤ 57343) ↔ False) :=
    iff_false_intro (char_not_surrogate c)
  have h127T : ((127 < c.toNat) ↔ True) := iff_true_intro h127
  have d32 : decide (c.toNat = 32) = false := decide_eq_false (by omega)
  have dsp : decide (isPySpace tbl c) = false :=
    decide_eq_false (by
      rintro (⟨_, h⟩ | ⟨_, h⟩ | h)
      · omega
      · omega
      · rw [hW] at h
        exact Bool.false_ne_true h)
  rw [lex, sourceLines_single c (by omega) (by omega)]
  simp only [lexLines, lexLine, tabIndex, surrogateCheck, lexChars, lexSingle, addTok,
    lex_error, ind_error, identStart, identCont, numDigit, scanStringBody,
    closeDedents, List.takeWhile, List.dropWhile, List.all_cons, List.all_nil,
    List.drop, List.length, List.headD,
    e9, e32, e34, e95, e60, e62, e43, e45, e42, e47, e37, e58, e44, e40, e41, e61,
    l13, l32, l57, l90, l122, hsur, h127T,
    hL, hS, hD, hW, d32, dsp,
    decide_False, decide_True, if_false, if_true, Bool.false_eq_true, Bool.true_eq_false,
    and_false, false_and, and_true, true_and, or_false, false_or, or_true, true_or,
    iff_false, iff_true,
    Bool.false_ne_true, ne_eq, Nat.zero_mod, not_false_iff, not_true, lt_irrefl,
    List.length_nil, List.length_cons, List.nil_append, List.cons_append, List.append_nil]
  rfl

/-- Unicode table for the concrete sources of C8: the only non-ASCII
characters that occur are ñ (U+00F1, a letter, category Ll) and
¿ (U+00BF, category Po: not a letter, digit, symbol or whitespace). -/
def tblEs : UTable :=
  ⟨fun ch => decide (ch.toNat = 241), fun _ => false, fun _ => false, fun _ => false⟩

end Lexer

/-- **C8 counterexample.**  The claim says an identifier-like token
starting with a non-ASCII Unicode letter is rejected with HND-LEX-0004 and
identifiers accept only the ASCII start `[A-Za-z_]`.  In the code,
`lex` tries `_re_ident_uni` first (lexer.py line 193), whose start class
`[A-Za-z_]|[^\W\d_]` accepts any Unicode letter, so `ñ = 1` lexes cleanly
to an IDENT token `ñ` with no diagnostics at all. -/
theorem c8_counterexample :
    Lexer.lex Lexer.tblEs (String.toList "ñ = 1\n") "<input>" =
      ([⟨"IDENT", "ñ", ⟨"<input>", 1, 1, 2⟩⟩,
        ⟨"EQ", "=", ⟨"<input>", 1, 3, 4⟩⟩,
        ⟨"NUMBER", "1", ⟨"<input>", 1, 5, 6⟩⟩,
        ⟨"NEWLINE", "\n", ⟨"<input>", 1, 6, 6⟩⟩,
        ⟨"EOF", "", ⟨"<input>", 2, 1, 1⟩⟩], []) := by rfl

/-- **C8 (amended).**  Identifier starts are ASCII `[A-Za-z_]` OR any
Unicode letter: for a line holding a single non-ASCII character `c`, if
`c` is a Unicode letter (and not category So, not whitespace, and — true
for every non-ASCII character — not a keyword), the lexer accepts it as an
IDENT token with no diagnostics; HND-LEX-0004 is emitted only for
non-ASCII characters that are neither emoji starts (So) nor identifier
characters nor digits, as for the character `d`. -/
theorem c8_lexer_unicode_identifiers (tbl : Lexer.UTable) (c d : Char) (fname : String)
    (hc : 127 < c.toNat) (hcL : tbl.isLetter c = true) (hcS : tbl.isSo c = false)
    (hcW : tbl.isSpaceU c = false) (hcK : ¬(String.mk [c] ∈ Lexer.KEYWORDS))
    (hd : 127 < d.toNat) (hdL : tbl.isLetter d = false) (hdS : tbl.isSo d = false)
    (hdD : tbl.isDigitU d = false) (hdW : tbl.isSpaceU d = false) :
    Lexer.lex tbl [c, Char.ofNat 10] fname =
      ([⟨"IDENT", String.mk [c], ⟨fname, 1, 1, 2⟩⟩,
        ⟨"NEWLINE", "\n", ⟨fname, 1, 2, 2⟩⟩,
        ⟨"EOF", "", ⟨fname, 2, 1, 1⟩⟩], []) ∧
    Lexer.lex tbl [d, Char.ofNat 10] fname =
      ([⟨"NEWLINE", "\n", ⟨fname, 1, 2, 2⟩⟩,
        ⟨"EOF", "", ⟨fname, 2, 1, 1⟩⟩],
       [⟨"1🐛1", "HND-LEX-0004", "error",
         "Non-ASCII character \x27" ++ String.mk [d] ++
           "\x27 is not allowed here in HAND Core v0.1.",
         ⟨fname, 1, 1⟩,
         some "Move it into a string literal, use an identifier, or replace it."⟩]) :=
  ⟨Lexer.lex_single_letter tbl c fname hc hcL hcS hcW hcK,
   Lexer.lex_single_reject tbl d fname hd hdL hdS hdD hdW⟩

/-- Witness for C8\x27s amended theorem at ñ (a Unicode letter) and
¿ (not a letter): ñ lexes without diagnostics, ¿ draws HND-LEX-0004. -/
theorem c8_lexer_unicode_identifiers_witness :
    (Lexer.lex Lexer.tblEs [Char.ofNat 241, Char.ofNat 10] "f").2 = [] ∧
    (Lexer.lex Lexer.tblEs [Char.ofNat 191, Char.ofNat 10] "f").2.map
      (fun dg => dg.code) = ["HND-LEX-0004"] := by
  have h := c8_lexer_unicode_identifiers Lexer.tblEs (Char.ofNat 241) (Char.ofNat 191) "f"
    (by decide) (by decide) (by decide) (by decide) (by decide)
    (by decide) (by decide) (by decide) (by decide) (by decide)
  refine ⟨by rw [h.1], ?_⟩
  rw [h.2]
  rfl

/-! ## The translation validator (`hand_conformance_suite_v0_1_with_cnl_translation/transliterate.py`)

The validator lexes masked copies of base and candidate with the lexer
above (the only `handc.lexer` in the repository) and compares the kept
token streams in lockstep. -/

namespace Transliterate

/-- Boundary characters of Python `str.splitlines`: LF, VT, FF, CR, FS,
GS, RS, NEL, LS, PS. -/
abbrev isLineBreak (c : Char) : Prop :=
  c.toNat = 10 ∨ c.toNat = 11 ∨ c.toNat = 12 ∨ c.toNat = 13 ∨ c.toNat = 28 ∨
    c.toNat = 29 ∨ c.toNat = 30 ∨ c.toNat = 133 ∨ c.toNat = 8232 ∨ c.toNat = 8233

/-- Worker for `str.splitlines`; `acc` holds the current line reversed. -/
def splitlinesGo (cs : List Char) (acc : List Char) : List (List Char) :=
  match cs with
  | [] => [acc.reverse]
  | [c] =>
    if c.toNat = 13 then [acc.reverse]
    else if isLineBreak c then [acc.reverse]
    else [(c :: acc).reverse]
  | c :: d :: rest2 =>
    if c.toNat = 13 then
      if d.toNat = 10 then
        match rest2 with
        | [] => [acc.reverse]
        | _ :: _ => acc.reverse :: splitlinesGo rest2 []
      else acc.reverse :: splitlinesGo (d :: rest2) []
    else if isLineBreak c then acc.reverse :: splitlinesGo (d :: rest2) []
    else splitlinesGo (d :: rest2) (c :: acc)
termination_by structural cs

/-- Python `str.splitlines` (empty string gives no lines; a trailing
terminator adds no empty line). -/
def splitlinesPy (cs : List Char) : List (List Char) :=
  match cs with
  | [] => []
  | _ :: _ => splitlinesGo cs []

/-- Python `str.strip`. -/
def pyStrip (tbl : Lexer.UTable) (cs : List Char) : List Char :=
  ((cs.dropWhile (fun c => decide (Lexer.isPySpace tbl c))).reverse.dropWhile
    (fun c => decide (Lexer.isPySpace tbl c))).reverse

/-- `DESCRIPTION_HEADER = "📋 DESCRIPCIÓN:"`. -/
def DESCRIPTION_HEADER : List Char := String.toList "📋 DESCRIPCIÓN:"

/-- First 0-based line index whose strip equals the header
(`_description_lines` / the `next(...)` of the final header check). -/
def findHeaderIdx (tbl : Lexer.UTable) (ls : List (List Char)) (i : Nat) : Option Nat :=
  match ls with
  | [] => Option.none
  | l :: rest =>
    if pyStrip tbl l = DESCRIPTION_HEADER then some i else findHeaderIdx tbl rest (i + 1)
termination_by structural ls

/-- Body collection of `_description_lines`: blank lines and lines indented
by four spaces stay editable (1-based numbers `j + 1`); the first other
line ends the block. -/
def collectBody (tbl : Lexer.UTable) (ls : List (List Char)) (j : Nat) : List Nat :=
  match ls with
  | [] => []
  | ln :: rest =>
    if pyStrip tbl ln = [] then (j + 1) :: collectBody tbl rest (j + 1)
    else if ln.take 4 = [Char.ofNat 32, Char.ofNat 32, Char.ofNat 32, Char.ofNat 32] then
      (j + 1) :: collectBody tbl rest (j + 1)
    else []
termination_by structural ls

/-- `_description_lines`: the 1-based editable body lines of the
📋 DESCRIPCIÓN block (the header line itself stays code). -/
def descriptionLines (tbl : Lexer.UTable) (src : List Char) : List Nat :=
  let lines := splitlinesPy src
  match findHeaderIdx tbl lines 0 with
  | Option.none => []
  | some i => collectBody tbl (lines.drop (i + 1)) (i + 1)

/-- `DESCRIPTION_HEADER in src.splitlines()` (exact line equality). -/
def hasHeaderLine (src : List Char) : Bool :=
  (splitlinesPy src).any (fun l => decide (l = DESCRIPTION_HEADER))

/-- Per-line masking of `_mask_description` (1-based `i`): editable blank
lines become empty, other editable lines keep their indentation and are
replaced by an empty string literal. -/
def maskLines (tbl : Lexer.UTable) (ls : List (List Char)) (i : Nat) (ed : List Nat) :
    List (List Char) :=
  match ls with
  | [] => []
  | ln :: rest =>
    (if i ∈ ed then
      if pyStrip tbl ln = [] then []
      else ln.takeWhile (fun c => decide (Lexer.isPySpace tbl c)) ++ [Char.ofNat 34, Char.ofNat 34]
    else ln) :: maskLines tbl rest (i + 1) ed
termination_by structural ls

/-- `"\n".join(out_lines)`. -/
def joinNl (ls : List (List Char)) : List Char :=
  match ls with
  | [] => []
  | [l] => l
  | l :: l2 :: rest => l ++ Char.ofNat 10 :: joinNl (l2 :: rest)
termination_by structural ls

/-- `_mask_description`. -/
def maskDescription (tbl : Lexer.UTable) (src : List Char) (ed : List Nat) : List Char :=
  joinNl (maskLines tbl (splitlinesPy src) 1 ed) ++
    (if src.getLast? = some (Char.ofNat 10) then [Char.ofNat 10] else [])

/-- `SpanRef` of transliterate.py. -/
structure SpanRef where
  file : String
  line : Nat
  col : Nat
  end_col : Nat
  deriving Repr, DecidableEq

/-- `Violation` of transliterate.py; `whereLoc` is the source field
`where` (a reserved word in Lean). -/
structure Violation where
  whereLoc : SpanRef
  message : String
  deriving Repr, DecidableEq

/-- Backward walk of `_is_translatable_string` (skipping `"NL"` kinds,
which this lexer never emits): the argument is the Python index plus one,
so `0` encodes `k < 0`. -/
def prevNonNl (toks : List Lexer.Token) (k : Nat) : Option Lexer.Token :=
  match k with
  | 0 => Option.none
  | k + 1 =>
    match toks.get? k with
    | some t => if t.kind = "NL" then prevNonNl toks k else some t
    | Option.none => Option.none
termination_by structural k

/-- `_is_translatable_string`: a STRING token whose previous token is the
🌐 marker emoji. -/
def is_translatable_string (toks : List Lexer.Token) (idx : Nat) : Bool :=
  match toks.get? idx with
  | Option.none => false
  | some t =>
    if t.kind = "STRING" then
      match prevNonNl toks idx with
      | some prev => decide (prev.kind = "EMOJI" ∧ prev.value = "🌐")
      | Option.none => false
    else false

/-- `filter_tokens`: keep `(index, token)` pairs whose line is not
editable. -/
def filterToksGo (ed : List Nat) (toks : List Lexer.Token) (i : Nat) :
    List (Nat × Lexer.Token) :=
  match toks with
  | [] => []
  | t :: rest =>
    if t.span.line ∈ ed then filterToksGo ed rest (i + 1)
    else (i, t) :: filterToksGo ed rest (i + 1)
termination_by structural toks

def filter_tokens (toks : List Lexer.Token) (ed : List Nat) : List (Nat × Lexer.Token) :=
  filterToksGo ed toks 0

/-- The lockstep comparison loop of `validate_translation` (lines
191–233), including the final length check; it stops at the first
violation, like the early returns of the source. -/
def compareKept (baseToks candToks : List Lexer.Token) (candName : String)
    (kb kc : List (Nat × Lexer.Token)) : List Violation :=
  match kb, kc with
  | [], [] => []
  | [], _ :: _ =>
    [⟨⟨candName, 1, 1, 1⟩, "Token stream length differs outside 📋 DESCRIPCIÓN (illegal code change)."⟩]
  | _ :: _, [] =>
    [⟨⟨candName, 1, 1, 1⟩, "Token stream length differs outside 📋 DESCRIPCIÓN (illegal code change)."⟩]
  | (bidx, bt) :: bs, (cidx, ct) :: cs =>
    if bt.kind = ct.kind then
      if bt.kind = "STRING" then
        if is_translatable_string baseToks bidx = true ∧ is_translatable_string candToks cidx = true then
          compareKept baseToks candToks candName bs cs
        else
          if bt.value = ct.value then compareKept baseToks candToks candName bs cs
          else
            [⟨⟨candName, ct.span.line, ct.span.col, ct.span.end_col⟩,
              "Unmarked string literal changed (only 🌐-marked literals may change)."⟩]
      else
        if bt.value = ct.value then compareKept baseToks candToks candName bs cs
        else
          [⟨⟨candName, ct.span.line, ct.span.col, ct.span.end_col⟩,
            "Token value mismatch outside 📋 DESCRIPCIÓN: base=" ++ PyGen.pyReprStr bt.value ++
              " candidate=" ++ PyGen.pyReprStr ct.value⟩]
    else
      [⟨⟨candName, ct.span.line, ct.span.col, ct.span.end_col⟩,
        "Token kind mismatch outside 📋 DESCRIPCIÓN: base=" ++ bt.kind ++
          " candidate=" ++ ct.kind⟩]
termination_by structural kb

/-- `validate_translation` of transliterate.py. -/
def validate_translation (tbl : Lexer.UTable) (base cand : List Char)
    (baseName candName : String) : List Violation :=
  let baseDesc := descriptionLines tbl base
  let candDesc := descriptionLines tbl cand
  let baseHas := hasHeaderLine base
  let candHas := hasHeaderLine cand
  if baseHas ≠ candHas then
    [⟨⟨candName, 1, 1, 1⟩, "📋 DESCRIPCIÓN block presence differs between base and candidate."⟩]
  else
    let baseLex := Lexer.lex tbl (maskDescription tbl base baseDesc) baseName
    let candLex := Lexer.lex tbl (maskDescription tbl cand candDesc) candName
    if baseLex.2 ≠ [] then
      [⟨⟨baseName, 1, 1, 1⟩, "Base lex errors: " ++ toString baseLex.2.length⟩]
    else if candLex.2 ≠ [] then
      -- `getattr(first, "span", None)` is None: Diagnostic has a `src`, no `span`
      [⟨⟨candName, 1, 1, 1⟩, "Candidate lex errors: " ++ toString candLex.2.length⟩]
    else
      let vs := compareKept baseLex.1 candLex.1 candName
        (filter_tokens baseLex.1 baseDesc) (filter_tokens candLex.1 candDesc)
      if vs ≠ [] then vs
      else if baseHas = true then
        match findHeaderIdx tbl (splitlinesPy base) 0, findHeaderIdx tbl (splitlinesPy cand) 0 with
        | some bi, some ci =>
          if pyStrip tbl ((splitlinesPy base).getD bi []) ≠ pyStrip tbl ((splitlinesPy cand).getD ci []) then
            [⟨⟨candName, ci + 1, 1, 1⟩, "📋 DESCRIPCIÓN header line changed (must remain canonical)."⟩]
          else []
        | _, _ => []
      else []

end Transliterate

/-! ## Claim C3: what the translation validator accepts -/

theorem filterToksGo_map_nil (toks : List Lexer.Token) (i : Nat) :
    (Transliterate.filterToksGo [] toks i).map (fun p => (p.2.kind, p.2.value)) =
      toks.map (fun t => (t.kind, t.value)) := by
  induction toks generalizing i with
  | nil => rfl
  | cons t rest ih =>
    simp only [Transliterate.filterToksGo, List.not_mem_nil, if_false, List.map_cons]
    rw [ih]

theorem compareKept_of_eq (baseToks candToks : List Lexer.Token) (candName : String)
    (kb kc : List (Nat × Lexer.Token))
    (h : kb.map (fun p => (p.2.kind, p.2.value)) = kc.map (fun p => (p.2.kind, p.2.value))) :
    Transliterate.compareKept baseToks candToks candName kb kc = [] := by
  induction kb generalizing kc with
  | nil =>
    cases kc with
    | nil => rfl
    | cons c cs => simp at h
  | cons b bs ih =>
    cases kc with
    | nil => simp at h
    | cons c cs =>
      simp only [List.map_cons, List.cons.injEq, Prod.mk.injEq] at h
      obtain ⟨⟨hk, hv⟩, hrest⟩ := h
      obtain ⟨bidx, bt⟩ := b
      obtain ⟨cidx, ct⟩ := c
      simp only at hk hv
      rw [Transliterate.compareKept]
      rw [if_pos hk]
      by_cases hstr : bt.kind = "STRING"
      · rw [if_pos hstr]
        by_cases htr : Transliterate.is_translatable_string baseToks bidx = true ∧
            Transliterate.is_translatable_string candToks cidx = true
        · rw [if_pos htr]
          exact ih cs hrest
        · rw [if_neg htr, if_pos hv]
          exact ih cs hrest
      · rw [if_neg hstr, if_pos hv]
        exact ih cs hrest

/-- **C3 counterexample.**  The claim says a candidate that differs from
the base anywhere outside the description body and outside 🌐-marked
string literals draws a violation.  Both sources below are pure ASCII —
no 📋 DESCRIPCIÓN block, no 🌐 marker, so no permitted edit window at all —
and the candidate differs from the base (an extra space before the string
literal), yet `validate_translation` accepts: it compares the lexed token
streams on kind and value only and never looks at spans or raw text. -/
theorem c3_counterexample :
    Transliterate.validate_translation Lexer.tblEs
      (String.toList "show \"keep\"\n") (String.toList "show  \"keep\"\n")
      "base" "candidate" = [] ∧
    String.toList "show \"keep\"\n" ≠ String.toList "show  \"keep\"\n" ∧
    (String.toList "show \"keep\"\n").all (fun ch => decide (ch.toNat < 128)) = true ∧
    (String.toList "show  \"keep\"\n").all (fun ch => decide (ch.toNat < 128)) = true :=
  ⟨by rfl, by decide, by rfl, by rfl⟩

/-- **C3 (amended).**  Acceptance of `validate_translation` is purely
token-level: when neither source has a 📋 DESCRIPCIÓN header line or
editable description lines, and the masked sources lex without
diagnostics to token streams that agree pointwise on kind and value
(spans are never compared), the validator returns no violations —
regardless of any textual differences, such as whitespace, between base
and candidate. -/
theorem c3_token_level_acceptance (tbl : Lexer.UTable) (base cand : List Char)
    (baseName candName : String) (tb tc : List Lexer.Token)
    (hB : Transliterate.hasHeaderLine base = false)
    (hC : Transliterate.hasHeaderLine cand = false)
    (hDB : Transliterate.descriptionLines tbl base = [])
    (hDC : Transliterate.descriptionLines tbl cand = [])
    (hlexB : Lexer.lex tbl (Transliterate.maskDescription tbl base []) baseName = (tb, []))
    (hlexC : Lexer.lex tbl (Transliterate.maskDescription tbl cand []) candName = (tc, []))
    (hkv : tb.map (fun t => (t.kind, t.value)) = tc.map (fun t => (t.kind, t.value))) :
    Transliterate.validate_translation tbl base cand baseName candName = [] := by
  simp only [Transliterate.validate_translation]
  rw [hB, hC, hDB, hDC, hlexB, hlexC]
  rw [if_neg (fun h => h rfl)]
  dsimp only
  rw [if_neg (fun h => h rfl), if_neg (fun h => h rfl)]
  rw [compareKept_of_eq tb tc candName _ _ (by
    rw [Transliterate.filter_tokens, Transliterate.filter_tokens,
      filterToksGo_map_nil, filterToksGo_map_nil, hkv])]
  rw [if_neg (fun h => h rfl)]
  rfl

/-- Witness for C3\x27s amended theorem at the counterexample pair: the
two sources lex to kind/value-equal streams (the spans differ), so the
validator returns no violations. -/
theorem c3_token_level_acceptance_witness :
    Transliterate.validate_translation Lexer.tblEs
      (String.toList "show \"keep\"\n") (String.toList "show  \"keep\"\n")
      "b" "c" = [] :=
  c3_token_level_acceptance Lexer.tblEs
    (String.toList "show \"keep\"\n") (String.toList "show  \"keep\"\n") "b" "c"
    [⟨"KEYWORD", "show", ⟨"b", 1, 1, 5⟩⟩, ⟨"STRING", "\"keep\"", ⟨"b", 1, 6, 12⟩⟩,
     ⟨"NEWLINE", "\n", ⟨"b", 1, 12, 12⟩⟩, ⟨"EOF", "", ⟨"b", 2, 1, 1⟩⟩]
    [⟨"KEYWORD", "show", ⟨"c", 1, 1, 5⟩⟩, ⟨"STRING", "\"keep\"", ⟨"c", 1, 7, 13⟩⟩,
     ⟨"NEWLINE", "\n", ⟨"c", 1, 13, 13⟩⟩, ⟨"EOF", "", ⟨"c", 2, 1, 1⟩⟩]
    (by rfl) (by rfl) (by rfl) (by rfl) (by rfl) (by rfl) (by rfl)

end HAND
